import Mathlib

/-!
Verification of the admission-control and result-caching core of the
`techuhat/image2` backend (`src/backend/app.py`), against its
natural-language specification.

The Python source is shallowly embedded: pure fragments become Lean
functions, the mutable state of each component (rate-limit buckets, the
concurrency semaphore, telemetry rings, the cache directory) is passed
explicitly, and machine/floating-point details that the claims depend on
(Python `int()` truncation of non-integral seconds) are modelled over `ℚ`.
Timestamps (`time.time()` / `datetime.now()`) are rational numbers of
seconds; byte strings are `List ℕ` with entries below 256.
-/

/-- Python `int(x)` on a real number truncates toward zero.  Used for the
`reset` and `retry_after` fields of the rate limiter (`app.py` lines 78-79). -/
def pyInt (q : ℚ) : ℤ :=
  if 0 ≤ q then ⌊q⌋ else ⌈q⌉

/-- Python `str(b)` / f-string rendering of a `bool` (`"True"` / `"False"`),
as used when a boolean is interpolated into the cache key of `pdf_to_docx`
(`app.py` line 1120). -/
def pyBoolStr : Bool → String
  | true => "True"
  | false => "False"

/-- UTF-8 bytes of an ASCII string (`str.encode()`); every string the code
encodes (the cache salt) is plain ASCII, where UTF-8 is the identity on
code points. -/
def strBytes (s : String) : List ℕ :=
  s.data.map Char.toNat

namespace SHA256

/-- Reduction to a 32-bit word (all word arithmetic in SHA-256 is mod 2^32). -/
def w32 (n : ℕ) : ℕ := n % 4294967296

/-- Right rotation of a 32-bit word. -/
def rotr (x n : ℕ) : ℕ := w32 ((x >>> n) ||| (x <<< (32 - n)))

def ch (x y z : ℕ) : ℕ := w32 ((x &&& y) ^^^ ((w32 (4294967295 - x)) &&& z))

def maj (x y z : ℕ) : ℕ := w32 ((x &&& y) ^^^ (x &&& z) ^^^ (y &&& z))

def bigSigma0 (x : ℕ) : ℕ := w32 (rotr x 2 ^^^ rotr x 13 ^^^ rotr x 22)

def bigSigma1 (x : ℕ) : ℕ := w32 (rotr x 6 ^^^ rotr x 11 ^^^ rotr x 25)

def smallSigma0 (x : ℕ) : ℕ := w32 (rotr x 7 ^^^ rotr x 18 ^^^ (x >>> 3))

def smallSigma1 (x : ℕ) : ℕ := w32 (rotr x 17 ^^^ rotr x 19 ^^^ (x >>> 10))

/-- The 64 round constants of SHA-256. -/
def K : List ℕ :=
  [1116352408, 1899447441, 3049323471, 3921009573, 961987163, 1508970993,
   2453635748, 2870763221, 3624381080, 310598401, 607225278, 1426881987,
   1925078388, 2162078206, 2614888103, 3248222580, 3835390401, 4022224774,
   264347078, 604807628, 770255983, 1249150122, 1555081692, 1996064986,
   2554220882, 2821834349, 2952996808, 3210313671, 3336571891, 3584528711,
   113926993, 338241895, 666307205, 773529912, 1294757372, 1396182291,
   1695183700, 1986661051, 2177026350, 2456956037, 2730485921, 2820302411,
   3259730800, 3345764771, 3516065817, 3600352804, 4094571909, 275423344,
   430227734, 506948616, 659060556, 883997877, 958139571, 1322822218,
   1537002063, 1747873779, 1955562222, 2024104815, 2227730452, 2361852424,
   2428436474, 2756734187, 3204031479, 3329325298]

/-- The initial hash value of SHA-256. -/
def H0 : List ℕ :=
  [1779033703, 3144134277, 1013904242, 2773480762,
   1359893119, 2600822924, 528734635, 1541459225]

/-- Message padding: a 0x80 byte, zeros to 56 mod 64, then the bit length as
8 big-endian bytes. -/
def pad (msg : List ℕ) : List ℕ :=
  let len := msg.length
  let zeros := (119 - len % 64) % 64
  let bitlen := 8 * len
  msg ++ [0x80] ++ List.replicate zeros 0 ++
    ((List.range 8).map fun i => (bitlen >>> (8 * (7 - i))) % 256)

/-- Split a byte list into 64-byte blocks. -/
def chunks64 (l : List ℕ) : List (List ℕ) :=
  if h : l = [] then [] else l.take 64 :: chunks64 (l.drop 64)
termination_by l.length
decreasing_by
  simp only [List.length_drop]
  have hpos : 0 < l.length := List.length_pos.mpr h
  omega

/-- Big-endian 32-bit words of one 64-byte block. -/
def blockWords (block : List ℕ) : List ℕ :=
  (List.range 16).map fun i =>
    ((block.getD (4 * i) 0) <<< 24) + ((block.getD (4 * i + 1) 0) <<< 16) +
    ((block.getD (4 * i + 2) 0) <<< 8) + block.getD (4 * i + 3) 0

/-- Message-schedule extension of the 16 block words to 64 words. -/
def extend (ws : List ℕ) : List ℕ :=
  (List.range 48).foldl
    (fun acc _ =>
      let n := acc.length
      acc ++ [w32 (smallSigma1 (acc.getD (n - 2) 0) + acc.getD (n - 7) 0 +
                   smallSigma0 (acc.getD (n - 15) 0) + acc.getD (n - 16) 0)])
    ws

/-- One round of the compression function; the state is the 8-word list
`[a, b, c, d, e, f, g, h]`. -/
def round (st : List ℕ) (k w : ℕ) : List ℕ :=
  let a := st.getD 0 0
  let b := st.getD 1 0
  let c := st.getD 2 0
  let d := st.getD 3 0
  let e := st.getD 4 0
  let f := st.getD 5 0
  let g := st.getD 6 0
  let h := st.getD 7 0
  let t1 := w32 (h + bigSigma1 e + ch e f g + k + w)
  let t2 := w32 (bigSigma0 a + maj a b c)
  [w32 (t1 + t2), a, b, c, w32 (d + t1), e, f, g]

/-- Compression of one block into the running hash. -/
def compress (h : List ℕ) (block : List ℕ) : List ℕ :=
  let ws := extend (blockWords block)
  let st := (List.range 64).foldl (fun st i => round st (K.getD i 0) (ws.getD i 0)) h
  (List.range 8).map fun i => w32 (h.getD i 0 + st.getD i 0)

/-- Lowercase hex digit for a value below 16. -/
def hexDigit (n : ℕ) : Char :=
  if n < 10 then Char.ofNat (48 + n) else Char.ofNat (87 + n)

/-- Lowercase 8-hex-digit rendering of a 32-bit word. -/
def toHex8 (n : ℕ) : String :=
  ⟨(List.range 8).map fun i => hexDigit ((n >>> (4 * (7 - i))) % 16)⟩

/-- SHA-256 digest of a byte list, as the lowercase hex string that
`hashlib.sha256(...).hexdigest()` returns. -/
def hexdigest (msg : List ℕ) : String :=
  let final := (chunks64 (pad msg)).foldl compress H0
  String.join (final.map toHex8)

end SHA256

/-!
Configuration (`Config` dataclass, `app.py` lines 32-43).  The values below
are the environment-variable defaults, which the claims quantify over.
-/

def MAX_CONCURRENT_OPERATIONS : ℕ := 5

def MAX_MEMORY_USAGE : ℚ := 80

def RATE_LIMIT_PER_MINUTE : ℕ := 20

def RATE_LIMIT_PER_HOUR : ℕ := 100

def MAX_ERROR_HISTORY : ℕ := 200

def CACHE_SALT : String := "default-salt"

namespace RateLimiter

/-- Per-endpoint-class `(maxRequests, windowSeconds)` limits with the
`'default'` fallback for unknown classes (`app.py` lines 50-55 and 59). -/
def limits (endpoint : String) : ℕ × ℚ :=
  if endpoint = "default" then (RATE_LIMIT_PER_HOUR, 3600)
  else if endpoint = "pdf_convert" then (10, 60)
  else if endpoint = "batch_process" then (5, 300)
  else if endpoint = "compress" then (RATE_LIMIT_PER_MINUTE, 60)
  else (RATE_LIMIT_PER_HOUR, 3600)

/-- The rate-limit information dictionary returned by `is_allowed`
(`app.py` lines 75-89). -/
structure RateInfo where
  limit : ℕ
  remaining : ℕ
  reset : ℤ
  retryAfter : ℤ
  deriving Repr, DecidableEq

/-- The `self.requests` buckets: one timestamp deque per `"ip:endpoint"`
key, empty by default (`defaultdict(deque)`, `app.py` line 48). -/
def State := String → List ℚ

/-- One call of `is_allowed` restricted to the bucket of the addressed key
(`app.py` lines 57-89): pop timestamps from the left while they are older
than `now - window`, then either reject (leaving the pruned bucket) or
append `now` and accept. -/
def is_allowed_bucket (lim : ℕ × ℚ) (bucket : List ℚ) (now : ℚ) :
    Bool × RateInfo × List ℚ :=
  let limit_count := lim.1
  let limit_window := lim.2
  let pruned := bucket.dropWhile fun t => decide (t < now - limit_window)
  let current_count := pruned.length
  if limit_count ≤ current_count then
    let oldest_request := pruned.headD now
    let reset_time := oldest_request + limit_window
    (false,
     { limit := limit_count, remaining := 0, reset := pyInt reset_time,
       retryAfter := pyInt (reset_time - now) },
     pruned)
  else
    (true,
     { limit := limit_count, remaining := limit_count - current_count - 1,
       reset := pyInt (now + limit_window), retryAfter := 0 },
     pruned ++ [now])

/-- Result of a keyed `is_allowed` call: the decision, the rate-limit info,
and the updated bucket map (pruning mutates the stored deque in place, so
the pruned bucket persists on rejection too). -/
structure Result where
  allowed : Bool
  info : RateInfo
  state : State

/-- `RateLimiter.is_allowed(client_ip, endpoint)` at time `now`
(`app.py` lines 57-89). -/
def is_allowed (st : State) (client_ip endpoint : String) (now : ℚ) : Result :=
  let key := client_ip ++ ":" ++ endpoint
  let r := is_allowed_bucket (limits endpoint) (st key) now
  ⟨r.1, r.2.1, fun k => if k = key then r.2.2 else st k⟩

/-- Record of one `is_allowed` call on a fixed bucket: the call time, the
decision, the returned info, and the bucket contents after the call. -/
structure CallRecord where
  time : ℚ
  allowed : Bool
  info : RateInfo
  bucket : List ℚ
  deriving Repr, DecidableEq

/-- Trace of successive `is_allowed` calls for one key, one per element of
`ts` (the caller-observed behaviour on which the sliding-window claims are
stated). -/
def runCalls (lim : ℕ × ℚ) (bucket : List ℚ) : List ℚ → List CallRecord
  | [] => []
  | t :: ts =>
    let r := is_allowed_bucket lim bucket t
    ⟨t, r.1, r.2.1, r.2.2⟩ :: runCalls lim r.2.2 ts

/-- Bucket contents after a sequence of `is_allowed` calls. -/
def foldBucket (lim : ℕ × ℚ) (bucket : List ℚ) : List ℚ → List ℚ
  | [] => bucket
  | t :: ts => foldBucket lim (is_allowed_bucket lim bucket t).2.2 ts

/-- Number of calls in a trace that were allowed and fall inside the closed
interval `[s, s + w]`. -/
def countAllowedIn (recs : List CallRecord) (s w : ℚ) : ℕ :=
  (recs.filter fun r => r.allowed && decide (s ≤ r.time) && decide (r.time ≤ s + w)).length

end RateLimiter

namespace CacheManager

/-- `CacheManager.get_file_hash(file_content)`: SHA-256 of the salt bytes
followed by the content bytes, as a lowercase hex string
(`app.py` lines 618-622, with the `CACHE_SALT` default). -/
def get_file_hash (file_content : List ℕ) : String :=
  SHA256.hexdigest (strBytes CACHE_SALT ++ file_content)

end CacheManager

/-- Stem of a file name as `pathlib.Path(...).stem`: the name without its
last suffix; a leading dot does not start a suffix. -/
def pathStem (name : String) : String :=
  let cs := name.data
  match ((List.range cs.length).filter fun i =>
      decide (0 < i) && decide (cs.getD i ' ' = '.')).getLast? with
  | some i => ⟨cs.take i⟩
  | none => name

/-- The state of the `cache/` directory: a map from cache-key file names to
the stored artifact bytes (`CACHE_DIR`, `app.py` line 607). -/
def CacheDir := String → Option (List ℕ)

/-- Rendering of the compression ratio `(1 - compressed/original) * 100`
with one decimal digit, as f-string `{ratio:.1f}` formatting does
(`app.py` lines 1389 and 1593).  The source formats an IEEE double with
round-half-even; here the rational value is rounded half-up.  No claim
depends on this string's exact digits. -/
def formatPercent (original_size compressed_size : ℕ) : String :=
  let q : ℚ := (1 - (compressed_size : ℚ) / (original_size : ℚ)) * 100
  let n : ℤ := ⌊q * 10 + 1 / 2⌋
  let a := n.natAbs
  (if n < 0 then "-" else "") ++ toString (a / 10) ++ "." ++ toString (a % 10) ++ "%"

/-- Outcome of a handler body at the caching layer: HTTP status, the bytes
sent back, the response headers the handler itself sets, the cache
directory afterwards, and how many times the external processor
(pdf2docx/PyMuPDF or Ghostscript/PyMuPDF) was invoked. -/
structure EndpointResult where
  status : ℕ
  fileBytes : List ℕ
  headers : List (String × String)
  cache : CacheDir
  processorCalls : ℕ

/-- Result of a successful PDF→DOCX conversion by the external tools: the
produced bytes, the method that succeeded, and the conversion statistics
reported in response headers (`app.py` lines 1140-1267). -/
structure ConvOut where
  bytes : List ℕ
  method : String
  pages : ℕ
  images : ℕ
  text_chars : ℕ

/-- Cache key of `pdf_to_docx`:
`f"{file_hash}_{include_images}_{output_filename}"` with
`output_filename = f"{base_name}.docx"` (`app.py` lines 1114-1120). -/
def pdf_to_docx_cache_key (file_content : List ℕ) (include_images : Bool)
    (original_name : String) : String :=
  CacheManager.get_file_hash file_content ++ "_" ++ pyBoolStr include_images ++ "_" ++
    (pathStem original_name ++ ".docx")

/-- Body of the `/pdf-to-docx` handler after validation and admission
(`app.py` lines 1109-1318).  `original_name` is the already-secured upload
name; `converted` is the outcome of the conversion attempt (pdf2docx, then
PyMuPDF), which is consulted only on a cache miss. -/
def pdf_to_docx_body (cache : CacheDir) (file_content : List ℕ)
    (original_name : String) (force_conversion include_images : Bool)
    (converted : Option ConvOut) : EndpointResult :=
  let cache_key := pdf_to_docx_cache_key file_content include_images original_name
  match cache cache_key, force_conversion with
  | some cachedBytes, false =>
    -- Cached DOCX returned directly; `send_file` adds no extra headers here.
    ⟨200, cachedBytes, [], cache, 0⟩
  | _, _ =>
    match converted with
    | some c =>
      if c.bytes.length = 0 then
        ⟨500, [], [], cache, 1⟩
      else
        ⟨200, c.bytes,
         [("X-Conversion-Method", c.method),
          ("X-Pages-Processed", toString c.pages),
          ("X-Images-Extracted", toString c.images),
          ("X-Text-Characters", toString c.text_chars)],
         fun k => if k = cache_key then some c.bytes else cache k, 1⟩
    | none => ⟨500, [], [], cache, 1⟩

/-- Result of a successful compression by the external tools
(Ghostscript, then PyMuPDF): the output bytes and the method name
(`app.py` lines 1421-1536). -/
structure CompOut where
  bytes : List ℕ
  method : String

/-- Cache key of `compress_pdf`:
`f"{file_hash}_{quality}_{output_filename}"` with
`output_filename = f"{base_name}_compressed.pdf"`
(`app.py` lines 1368-1374). -/
def compress_cache_key (file_content : List ℕ) (quality : String)
    (original_name : String) : String :=
  CacheManager.get_file_hash file_content ++ "_" ++ quality ++ "_" ++
    (pathStem original_name ++ "_compressed.pdf")

/-- Body of the `/compress-pdf` handler after validation and admission
(`app.py` lines 1362-1599).  `quality` is the lowercased form field
(default `"medium"`); `compressed` is the outcome of the compression
attempt, consulted only when compression is actually run. -/
def compress_pdf_body (cache : CacheDir) (file_content : List ℕ)
    (original_name : String) (force_compression : Bool) (quality : String)
    (compressed : Option CompOut) : EndpointResult :=
  let original_size := file_content.length
  let cache_key := compress_cache_key file_content quality original_name
  match cache cache_key, force_compression with
  | some cachedBytes, false =>
    ⟨200, cachedBytes,
     [("X-Compression-Ratio", formatPercent original_size cachedBytes.length),
      ("X-Original-Size", toString original_size),
      ("X-Compressed-Size", toString cachedBytes.length),
      ("X-Cached", "true")],
     cache, 0⟩
  | _, _ =>
    if original_size < 1048576 ∧ force_compression = false then
      -- "File already small, skipping compression" (app.py lines 1395-1407)
      ⟨200, file_content,
       [("X-Compression-Ratio", "0%"), ("X-Message", "File already optimized")],
       cache, 0⟩
    else
      match compressed with
      | none => ⟨500, [], [], cache, 1⟩
      | some out =>
        if original_size ≤ out.bytes.length ∧ force_compression = false then
          -- Compression did not shrink the file: original returned, nothing cached.
          ⟨200, file_content,
           [("X-Compression-Ratio", "0%"),
            ("X-Message", "Original file already optimized")],
           cache, 1⟩
        else
          ⟨200, out.bytes,
           [("X-Compression-Ratio", formatPercent original_size out.bytes.length),
            ("X-Original-Size", toString original_size),
            ("X-Compressed-Size", toString out.bytes.length),
            ("X-Method", out.method),
            ("X-Quality", quality)],
           fun k => if k = cache_key then some out.bytes else cache k, 1⟩

/-- Bounded-buffer append discipline shared by the two telemetry rings:
append on the right and drop the leftmost entry once the capacity is
exceeded.  This is both `deque(maxlen=cap).append` (`app.py` line 94 with
`maxlen=1000`) and the explicit `last_errors.append` / `pop(0)` pair
(`app.py` lines 296-298 with `MAX_ERROR_HISTORY = 200`). -/
def ringAppend (cap : ℕ) (xs : List α) (x : α) : List α :=
  let ys := xs ++ [x]
  if cap < ys.length then ys.tail else ys

namespace RequestMonitor

/-- One request log record (`app.py` lines 100-108).  `duration_ms` is the
rounded duration in milliseconds; `timestamp` the log time in seconds. -/
structure LogEntry where
  timestamp : ℚ
  endpoint : String
  method : String
  status_code : ℕ
  duration_ms : ℚ
  client_ip : String
  deriving Repr, DecidableEq

/-- Python `round(x, 2)` as used on the duration (`app.py` line 105); the
source rounds an IEEE double half-to-even, here the rational is rounded
half-up — no claim depends on the tie-breaking rule. -/
def round2 (q : ℚ) : ℚ := (⌊q * 100 + 1 / 2⌋ : ℚ) / 100

/-- `RequestMonitor.log_request` (`app.py` lines 97-111): build the record
and append it to the `maxlen=1000` deque. -/
def log_request (requests : List LogEntry) (endpoint method : String)
    (status_code : ℕ) (duration : ℚ) (client_ip : String) (now : ℚ) :
    List LogEntry :=
  ringAppend 1000 requests
    ⟨now, endpoint, method, status_code, round2 (duration * 1000), client_ip⟩

end RequestMonitor

/-- One tracked error record (`app.py` lines 288-294). -/
structure ErrorEntry where
  timestamp : ℚ
  etype : String
  message : String
  ip : String
  count : ℕ
  deriving Repr, DecidableEq

/-- The module-level error-tracking state: the `error_counts` dict keyed by
`f"{error_type}_{user_ip}"` and the `last_errors` list
(`app.py` lines 172-175). -/
structure ErrorState where
  error_counts : String → ℕ
  last_errors : List ErrorEntry

/-- The initial error-tracking state (`error_counts = {}`,
`last_errors = []`). -/
def ErrorState.initial : ErrorState := ⟨fun _ => 0, []⟩

/-- Number of `last_errors` entries of one client inside the trailing
minute of `now` (the list comprehension of `app.py` lines 279-281). -/
def recentErrorCount (st : ErrorState) (user_ip : String) (now : ℚ) : ℕ :=
  (st.last_errors.filter fun e =>
    decide (e.ip = user_ip) && decide (now - 1 * 60 < e.timestamp)).length

/-- `track_error(error_type, error_msg, user_ip)` at time `now`
(`app.py` lines 271-301): drop the record (returning `False`) when the
client already has strictly more than 10 entries in the trailing minute;
otherwise bump `error_counts`, append to the 200-capacity ring and return
`True`. -/
def track_error (st : ErrorState) (error_type error_msg user_ip : String)
    (now : ℚ) : Bool × ErrorState :=
  let error_key := error_type ++ "_" ++ user_ip
  if 10 < recentErrorCount st user_ip now then
    (false, st)
  else
    let cnt := st.error_counts error_key + 1
    (true,
     { error_counts := fun k => if k = error_key then cnt else st.error_counts k,
       last_errors :=
         ringAppend MAX_ERROR_HISTORY st.last_errors
           ⟨now, error_type, error_msg, user_ip, cnt⟩ })

/-- Trace of `track_error` calls: each element of `calls` is
`(error_type, error_msg, user_ip, now)`; returns the per-call results and
the final state. -/
def runTrackErrors (st : ErrorState) :
    List (String × String × String × ℚ) → List Bool × ErrorState
  | [] => ([], st)
  | c :: cs =>
    let r := track_error st c.1 c.2.1 c.2.2.1 c.2.2.2
    let rest := runTrackErrors r.2 cs
    (r.1 :: rest.1, rest.2)

namespace ResourceMonitor

/-- Point-in-time system statistics as read from `psutil`
(`app.py` lines 249-251). -/
structure SysStats where
  memory_percent : ℚ
  cpu_percent : ℚ
  disk_free : ℕ
  deriving Repr, DecidableEq

/-- `ResourceMonitor.check_system_health()` (`app.py` lines 242-269):
memory, then disk, then CPU, short-circuiting on the first violation;
without `psutil` the monitor fails open. -/
def check_system_health (psutil_available : Bool) (s : SysStats) :
    Bool × String :=
  if psutil_available = false then
    (true, "Resource monitoring not available")
  else if MAX_MEMORY_USAGE < s.memory_percent then
    (false, "High memory usage")
  else if s.disk_free < 1024 ^ 3 then
    (false, "Low disk space")
  else if (90 : ℚ) < s.cpu_percent then
    (false, "High CPU usage")
  else
    (true, "System healthy")

end ResourceMonitor

/-!
The `operation_semaphore` (`app.py` line 176): a `threading.Semaphore`
holding `MAX_CONCURRENT_OPERATIONS` permits, used non-blockingly by
`enhanced_error_handler`.  Each semaphore operation is atomic, so an
arbitrary interleaving of handler threads is a sequence of events.
-/

inductive SemEvent where
  | tryAcquire : SemEvent
  | release : SemEvent
  deriving Repr, DecidableEq

/-- Record of one semaphore event: the event, whether it succeeded (an
`acquire(blocking=False)` on zero permits fails), and the permit count
afterwards. -/
structure SemRecord where
  event : SemEvent
  ok : Bool
  permits : ℕ
  deriving Repr, DecidableEq

/-- Semantics of a sequence of semaphore events starting from `permits`
available permits: `tryAcquire` takes a permit when one is available and
fails otherwise; `release` unconditionally returns a permit. -/
def runSem (permits : ℕ) : List SemEvent → List SemRecord
  | [] => []
  | SemEvent.tryAcquire :: es =>
    if 0 < permits then ⟨.tryAcquire, true, permits - 1⟩ :: runSem (permits - 1) es
    else ⟨.tryAcquire, false, permits⟩ :: runSem permits es
  | SemEvent.release :: es => ⟨.release, true, permits + 1⟩ :: runSem (permits + 1) es

/-- Number of successful acquires in a record list. -/
def sAcqCount (rs : List SemRecord) : ℕ :=
  rs.countP fun r => decide (r.event = SemEvent.tryAcquire) && r.ok

/-- Number of releases in a record list. -/
def relCount (rs : List SemRecord) : ℕ :=
  rs.countP fun r => decide (r.event = SemEvent.release)

/-- Permit count after the first `k` events (`permits` before any event). -/
def permitsAfter (permits : ℕ) (rs : List SemRecord) (k : ℕ) : ℕ :=
  match (rs.take k).getLast? with
  | some r => r.permits
  | none => permits

/-- Exception classes distinguished by `enhanced_error_handler`
(`app.py` lines 333-379). -/
inductive PyExc where
  | memoryError : PyExc
  | timeoutExpired : PyExc
  | fileNotFoundError : PyExc
  | permissionError : PyExc
  | otherException : PyExc
  deriving Repr, DecidableEq

/-- The observable part of a Flask response built by the wrappers: HTTP
status, the `error` and `code` fields of the JSON body (empty when
absent), the `retry_after` JSON field, and the headers. -/
structure Response where
  status : ℕ
  error : String
  code : String
  retryAfter : Option ℤ
  headers : List (String × String)
  deriving Repr, DecidableEq

/-- Responses that `enhanced_error_handler` produces for each caught
exception class (`app.py` lines 333-379). -/
def exceptionResponse : PyExc → Response
  | .memoryError =>
    ⟨507, "Insufficient memory", "MEMORY_ERROR", some 60, []⟩
  | .timeoutExpired =>
    ⟨408, "Operation timed out", "TIMEOUT_ERROR", some 30, []⟩
  | .fileNotFoundError =>
    ⟨500, "Required system tool not found", "TOOL_MISSING", none, []⟩
  | .permissionError =>
    ⟨403, "Permission denied", "PERMISSION_ERROR", none, []⟩
  | .otherException =>
    ⟨500, "Internal server error", "INTERNAL_ERROR", none, []⟩

/-- What one pass through the `enhanced_error_handler` wrapper did: the
response, the semaphore permits afterwards, whether the non-blocking
acquire succeeded, and how many times `release()` ran. -/
structure HandlerOutput where
  resp : Response
  permits : ℕ
  acquired : Bool
  released : ℕ
  deriving Repr, DecidableEq

/-- `enhanced_error_handler` (`app.py` lines 303-383): check system health,
then try a non-blocking semaphore acquire, then run the wrapped function —
translating each exception class to an error response — and release the
semaphore in the `finally` block on every exit path after a successful
acquire.  `body` is the outcome of the wrapped function: a response or a
raised exception. -/
def enhanced_error_handler (psutil_available : Bool)
    (stats : ResourceMonitor.SysStats) (permits : ℕ)
    (body : Except PyExc Response) : HandlerOutput :=
  let health := ResourceMonitor.check_system_health psutil_available stats
  if health.1 = false then
    ⟨⟨503, "System overloaded", "SYSTEM_OVERLOAD", some 60, []⟩,
     permits, false, 0⟩
  else if permits = 0 then
    ⟨⟨429, "Server busy", "TOO_MANY_REQUESTS", some 30, []⟩,
     permits, false, 0⟩
  else
    let resp :=
      match body with
      | .ok r => r
      | .error e => exceptionResponse e
    -- permits - 1 inside the protected region, + 1 in the finally block
    ⟨resp, permits - 1 + 1, true, 1⟩

/-- The three rate-limit headers added both to rejections and to successes
(`app.py` lines 551-561). -/
def rateHeaders (info : RateLimiter.RateInfo) : List (String × String) :=
  [("X-RateLimit-Limit", toString info.limit),
   ("X-RateLimit-Remaining", toString info.remaining),
   ("X-RateLimit-Reset", toString info.reset)]

/-- Combined effect of one request through a guarded endpoint. -/
structure PipelineOutput where
  resp : Response
  rl : RateLimiter.State
  permits : ℕ
  acquired : Bool
  released : ℕ

/-- One request through a guarded endpoint such as `/pdf-to-docx` or
`/compress-pdf`.  The decorator stack is `@app.route` over
`@rate_limit(endpoint)` over `@enhanced_error_handler` (`app.py` lines
1084-1086, 1328-1330), so at call time the `rate_limit` wrapper
(`app.py` lines 533-565) runs first and `enhanced_error_handler` runs
inside it. -/
def guarded_endpoint (endpoint : String) (rl : RateLimiter.State)
    (permits : ℕ) (client_ip : String) (now : ℚ) (psutil_available : Bool)
    (stats : ResourceMonitor.SysStats) (body : Except PyExc Response) :
    PipelineOutput :=
  let r := RateLimiter.is_allowed rl client_ip endpoint now
  if r.allowed = false then
    { resp :=
        { status := 429, error := "Rate limit exceeded", code := "",
          retryAfter := some r.info.retryAfter,
          headers := rateHeaders r.info ++
            [("Retry-After", toString r.info.retryAfter)] },
      rl := r.state, permits := permits, acquired := false, released := 0 }
  else
    let h := enhanced_error_handler psutil_available stats permits body
    { resp := { h.resp with headers := h.resp.headers ++ rateHeaders r.info },
      rl := r.state, permits := h.permits, acquired := h.acquired,
      released := h.released }

/-- One full request cycle as the monitoring hooks see it:
`before_request` records the start time (`app.py` lines 567-570), the
guarded endpoint produces the response, and `after_request` logs the
response's status code and the elapsed duration via
`RequestMonitor.log_request` (`app.py` lines 572-591). -/
def processRequest (requests : List RequestMonitor.LogEntry)
    (endpoint method : String) (rl : RateLimiter.State) (permits : ℕ)
    (client_ip : String) (start_time finish_time : ℚ)
    (psutil_available : Bool) (stats : ResourceMonitor.SysStats)
    (body : Except PyExc Response) :
    PipelineOutput × List RequestMonitor.LogEntry :=
  let out := guarded_endpoint endpoint rl permits client_ip start_time
    psutil_available stats body
  (out,
   RequestMonitor.log_request requests endpoint method out.resp.status
     (finish_time - start_time) client_ip finish_time)

/-!
Generic list lemmas for the sliding-window and ring-buffer proofs.
-/

lemma dropWhile_eq_self_of_forall {α : Type} {p : α → Bool} :
    ∀ {l : List α}, (∀ a ∈ l, p a = false) → l.dropWhile p = l
  | [], _ => rfl
  | a :: l, h => by
    simp [List.dropWhile_cons, h a (List.mem_cons_self a l)]

/-- On a chronologically sorted bucket the left-to-right pruning loop of
`is_allowed` removes exactly the timestamps below the cutoff. -/
lemma sorted_dropWhile_eq_filter (c : ℚ) :
    ∀ {l : List ℚ}, l.Sorted (· ≤ ·) →
      l.dropWhile (fun t => decide (t < c)) = l.filter fun t => decide (c ≤ t)
  | [], _ => rfl
  | a :: l, h => by
    rcases List.sorted_cons.mp h with ⟨ha, hl⟩
    by_cases hac : a < c
    · simpa [List.dropWhile_cons, List.filter_cons, hac, not_le.mpr hac] using
        sorted_dropWhile_eq_filter c hl
    · have hca : c ≤ a := not_lt.mp hac
      have : l.filter (fun t => decide (c ≤ t)) = l :=
        List.filter_eq_self.mpr fun b hb => by
          simpa using le_trans hca (ha b hb)
      simp [List.dropWhile_cons, List.filter_cons, hac, hca, this]

lemma length_filter_mono {α : Type} {p q : α → Bool} :
    ∀ {l : List α}, (∀ a ∈ l, p a = true → q a = true) →
      (l.filter p).length ≤ (l.filter q).length
  | [], _ => Nat.le_refl _
  | a :: l, h => by
    have ih : (l.filter p).length ≤ (l.filter q).length :=
      length_filter_mono fun b hb => h b (List.mem_cons_of_mem a hb)
    by_cases hp : p a = true
    · simp [List.filter_cons, hp, h a (List.mem_cons_self a l) hp, Nat.succ_le_succ ih]
    · by_cases hq : q a = true <;>
        simp [List.filter_cons, hp, hq] <;> omega

lemma filter_filter_of_imp {α : Type} {p q : α → Bool} {l : List α}
    (h : ∀ a ∈ l, p a = true → q a = true) :
    (l.filter q).filter p = l.filter p := by
  induction l with
  | nil => rfl
  | cons a l ih =>
    have ih' := ih fun b hb => h b (List.mem_cons_of_mem a hb)
    by_cases hp : p a = true
    · simp [List.filter_cons, hp, h a (List.mem_cons_self a l) hp, ih']
    · by_cases hq : q a = true <;> simp [List.filter_cons, hp, hq, ih']

namespace RateLimiter

/-- The records of a call trace carry exactly the call times, in order. -/
lemma runCalls_times (lim : ℕ × ℚ) :
    ∀ (ts : List ℚ) (B : List ℚ), (runCalls lim B ts).map CallRecord.time = ts
  | [], _ => rfl
  | _ :: ts, B => by
    simp [runCalls, runCalls_times lim ts]

/-- A trace cannot contain more allowed calls inside an interval than there
are call times inside that interval. -/
lemma countAllowedIn_le_times (lim : ℕ × ℚ) (s w : ℚ) :
    ∀ (ts : List ℚ) (B : List ℚ),
      countAllowedIn (runCalls lim B ts) s w ≤
        (ts.filter fun t => decide (s ≤ t) && decide (t ≤ s + w)).length
  | [], _ => Nat.le_refl 0
  | t :: ts, B => by
    have ih := countAllowedIn_le_times lim s w ts (is_allowed_bucket lim B t).2.2
    simp only [runCalls, countAllowedIn, List.filter_cons] at *
    by_cases hok : (is_allowed_bucket lim B t).1 <;>
      by_cases hs : decide (s ≤ t) = true <;>
      by_cases hw : decide (t ≤ s + w) = true <;>
      simp [hok, hs, hw] <;> omega

/-- Core sliding-window bound, generalized over the starting bucket:
the allowed calls inside `[s, s + w]` together with the starting bucket's
timestamps inside that interval never exceed the limit. -/
lemma countAllowedIn_le_aux (lim : ℕ × ℚ) (s : ℚ) :
    ∀ (ts : List ℚ) (B : List ℚ), ts.Sorted (· ≤ ·) → B.Sorted (· ≤ ·) →
      (∀ b ∈ B, ∀ t ∈ ts, b ≤ t) → B.length ≤ lim.1 →
      countAllowedIn (runCalls lim B ts) s lim.2 +
        (B.filter fun b => decide (s ≤ b) && decide (b ≤ s + lim.2)).length ≤ lim.1
  | [], B, _, _, _, hB => by
    simpa [runCalls, countAllowedIn] using
      le_trans (List.length_filter_le _ B) hB
  | t :: ts, B, hts, hB, hcross, hBlen => by
    rcases List.sorted_cons.mp hts with ⟨hhead, hts'⟩
    set w := lim.2 with hw
    set B1 := B.dropWhile (fun t' => decide (t' < t - w)) with hB1
    have hB1f : B1 = B.filter fun t' => decide (t - w ≤ t') :=
      sorted_dropWhile_eq_filter (t - w) hB
    have hB1len : B1.length ≤ B.length := by
      rw [hB1f]; exact List.length_filter_le _ B
    have hB1sorted : B1.Sorted (· ≤ ·) := by
      rw [hB1f]; exact hB.sublist (List.filter_sublist B)
    have hB1mem : ∀ b ∈ B1, b ∈ B := by
      intro b hb; rw [hB1f] at hb; exact (List.mem_filter.mp hb).1
    -- the interval filter of the pruned bucket when `t ≤ s + w`
    have hinterval : t ≤ s + w →
        (B1.filter fun b => decide (s ≤ b) && decide (b ≤ s + w)).length =
        (B.filter fun b => decide (s ≤ b) && decide (b ≤ s + w)).length := by
      intro htsw
      rw [hB1f, filter_filter_of_imp]
      intro a _ hpa
      have hsa : s ≤ a := by
        have := of_decide_eq_true (Bool.and_elim_left hpa)
        simpa using this
      have : t - w ≤ a := le_trans (by linarith) hsa
      simpa using this
    by_cases hcase : t ≤ s + w
    · -- the current call may fall inside the interval
      by_cases hfull : lim.1 ≤ B1.length
      · -- rejected: the bucket becomes the pruned bucket
        have hstep1 : (is_allowed_bucket lim B t).1 = false := by
          simp only [is_allowed_bucket]
          rw [if_pos (by simpa [hB1, hw] using hfull)]
        have hstep2 : (is_allowed_bucket lim B t).2.2 = B1 := by
          simp only [is_allowed_bucket]
          rw [if_pos (by simpa [hB1, hw] using hfull)]
        have ih := countAllowedIn_le_aux lim s ts B1 hts' hB1sorted
          (fun b hb t' ht' => hcross b (hB1mem b hb) t' (List.mem_cons_of_mem t ht'))
          (le_trans hB1len hBlen)
        rw [← hw] at ih
        simp only [runCalls, countAllowedIn, List.filter_cons, hstep1, hstep2] at ih ⊢
        simpa [hinterval hcase] using ih
      · -- accepted: the bucket becomes the pruned bucket plus `t`
        have hlt : B1.length < lim.1 := Nat.lt_of_not_le hfull
        have hstep1 : (is_allowed_bucket lim B t).1 = true := by
          simp only [is_allowed_bucket]
          rw [if_neg (by simpa [hB1, hw] using hfull)]
        have hstep2 : (is_allowed_bucket lim B t).2.2 = B1 ++ [t] := by
          simp only [is_allowed_bucket]
          rw [if_neg (by simpa [hB1, hw] using hfull)]
        have hsorted' : (B1 ++ [t]).Sorted (· ≤ ·) := by
          rw [List.Sorted, List.pairwise_append]
          refine ⟨hB1sorted, List.pairwise_singleton _ _, ?_⟩
          intro a ha b hb
          rw [List.mem_singleton] at hb
          rw [hb]
          exact hcross a (hB1mem a ha) t (List.mem_cons_self t ts)
        have hcross' : ∀ b ∈ B1 ++ [t], ∀ t' ∈ ts, b ≤ t' := by
          intro b hb t' ht'
          rcases List.mem_append.mp hb with hb | hb
          · exact hcross b (hB1mem b hb) t' (List.mem_cons_of_mem t ht')
          · rw [List.mem_singleton] at hb; rw [hb]; exact hhead t' ht'
        have ih := countAllowedIn_le_aux lim s ts (B1 ++ [t]) hts' hsorted'
          hcross' (by simpa using hlt)
        rw [← hw] at ih
        simp only [runCalls, countAllowedIn, List.filter_cons, hstep1, hstep2,
          List.filter_append, List.length_append] at ih ⊢
        by_cases hqt : (decide (s ≤ t) && decide (t ≤ s + w)) = true <;>
          simp only [hqt, Bool.true_and, Bool.false_and] at ih ⊢ <;>
          simp [List.filter_cons, hqt, hinterval hcase] at ih ⊢ <;>
          omega
    · -- the interval ends before the current call: no later call can land in it
      have hnone : countAllowedIn (runCalls lim B (t :: ts)) s w = 0 := by
        have hle := countAllowedIn_le_times lim s w (t :: ts) B
        have : ((t :: ts).filter fun t' =>
            decide (s ≤ t') && decide (t' ≤ s + w)).length = 0 := by
          rw [List.length_eq_zero]
          rw [List.filter_eq_nil_iff]
          intro a ha
          have hta : t ≤ a := by
            rcases List.mem_cons.mp ha with h | h
            · exact le_of_eq h.symm
            · exact hhead a h
          have : ¬ a ≤ s + w := by
            intro hle'
            exact hcase (le_trans hta hle')
          simp [this]
        omega
      have hBle := le_trans (List.length_filter_le
        (fun b => decide (s ≤ b) && decide (b ≤ s + w)) B) hBlen
      omega

end RateLimiter

namespace RateLimiter

/-- All configured windows are positive. -/
lemma limits_window_pos (endpoint : String) : 0 < (limits endpoint).2 := by
  unfold limits
  split
  · norm_num
  · split
    · norm_num
    · split
      · norm_num
      · split <;> norm_num

/-- Bucket well-formedness along a trace, generalized over the starting
bucket: after every call the bucket is sorted and lies inside
`[time - window, time]`. -/
lemma runCalls_bucket_inv (lim : ℕ × ℚ) (hw : 0 ≤ lim.2) :
    ∀ (ts : List ℚ) (B : List ℚ), ts.Sorted (· ≤ ·) → B.Sorted (· ≤ ·) →
      (∀ b ∈ B, ∀ t ∈ ts, b ≤ t) →
      ∀ r ∈ runCalls lim B ts,
        r.bucket.Sorted (· ≤ ·) ∧
          ∀ x ∈ r.bucket, r.time - lim.2 ≤ x ∧ x ≤ r.time
  | [], _, _, _, _ => by simp [runCalls]
  | t :: ts, B, hts, hB, hcross => by
    rcases List.sorted_cons.mp hts with ⟨hhead, hts'⟩
    set B1 := B.dropWhile (fun t' => decide (t' < t - lim.2)) with hB1
    have hB1f : B1 = B.filter fun t' => decide (t - lim.2 ≤ t') :=
      sorted_dropWhile_eq_filter (t - lim.2) hB
    have hB1sorted : B1.Sorted (· ≤ ·) := by
      rw [hB1f]; exact hB.sublist (List.filter_sublist B)
    have hB1mem : ∀ b ∈ B1, b ∈ B := by
      intro b hb; rw [hB1f] at hb; exact (List.mem_filter.mp hb).1
    have hB1lo : ∀ x ∈ B1, t - lim.2 ≤ x := by
      intro x hx; rw [hB1f] at hx
      simpa using (List.mem_filter.mp hx).2
    have hB1hi : ∀ x ∈ B1, x ≤ t := by
      intro x hx
      exact hcross x (hB1mem x hx) t (List.mem_cons_self t ts)
    -- the bucket after this call, in both branches
    have hnext : (is_allowed_bucket lim B t).2.2 = B1 ∨
        (is_allowed_bucket lim B t).2.2 = B1 ++ [t] := by
      simp only [is_allowed_bucket]
      by_cases hfull : lim.1 ≤ B1.length
      · left; rw [if_pos (by simpa [hB1] using hfull)]
      · right; rw [if_neg (by simpa [hB1] using hfull)]
    have hcurr : (is_allowed_bucket lim B t).2.2.Sorted (· ≤ ·) ∧
        ∀ x ∈ (is_allowed_bucket lim B t).2.2, t - lim.2 ≤ x ∧ x ≤ t := by
      rcases hnext with hnx | hnx <;> rw [hnx]
      · exact ⟨hB1sorted, fun x hx => ⟨hB1lo x hx, hB1hi x hx⟩⟩
      · constructor
        · rw [List.Sorted, List.pairwise_append]
          refine ⟨hB1sorted, List.pairwise_singleton _ _, ?_⟩
          intro a ha b hb
          rw [List.mem_singleton] at hb
          rw [hb]
          exact hB1hi a ha
        · intro x hx
          rcases List.mem_append.mp hx with hx | hx
          · exact ⟨hB1lo x hx, hB1hi x hx⟩
          · rw [List.mem_singleton] at hx
            rw [hx]
            exact ⟨by linarith, le_refl t⟩
    intro r hr
    rw [runCalls] at hr
    rcases List.mem_cons.mp hr with hr | hr
    · rw [hr]
      exact hcurr
    · -- tail: recurse from the updated bucket
      have hcross' : ∀ b ∈ (is_allowed_bucket lim B t).2.2, ∀ t' ∈ ts, b ≤ t' := by
        intro b hb t' ht'
        have hbt : b ≤ t := (hcurr.2 b hb).2
        exact le_trans hbt (hhead t' ht')
      exact runCalls_bucket_inv lim hw ts (is_allowed_bucket lim B t).2.2
        hts' hcurr.1 hcross' r hr

end RateLimiter

/-- Claim C2: for every sequence of `is_allowed` calls on one
(client, endpoint-class) key, made at nondecreasing clock times, the number
of allowed calls inside any closed interval of length `windowSeconds` never
exceeds the configured `maxRequests` of that class, and after every call the
bucket's remaining timestamps all lie within `[now - window, now]` and are
in chronological (equal to insertion) order. -/
theorem rate_limiter_sliding_window_invariant (endpoint : String)
    (ts : List ℚ) (hts : ts.Sorted (· ≤ ·)) :
    (∀ s : ℚ,
      RateLimiter.countAllowedIn
        (RateLimiter.runCalls (RateLimiter.limits endpoint) [] ts) s
        (RateLimiter.limits endpoint).2 ≤ (RateLimiter.limits endpoint).1) ∧
    (∀ r ∈ RateLimiter.runCalls (RateLimiter.limits endpoint) [] ts,
      r.bucket.Sorted (· ≤ ·) ∧
        ∀ x ∈ r.bucket,
          r.time - (RateLimiter.limits endpoint).2 ≤ x ∧ x ≤ r.time) := by
  constructor
  · intro s
    have h := RateLimiter.countAllowedIn_le_aux (RateLimiter.limits endpoint) s
      ts [] hts (List.sorted_nil) (by simp) (by simp)
    simpa using h
  · exact RateLimiter.runCalls_bucket_inv (RateLimiter.limits endpoint)
      (le_of_lt (RateLimiter.limits_window_pos endpoint)) ts [] hts
      (List.sorted_nil) (by simp)

/-- Witness for C2 at a concrete sorted trace: three calls at times 0, 1, 2
on the `pdf_convert` class; at most 10 of them are allowed in the minute
starting at 0. -/
theorem rate_limiter_sliding_window_invariant_witness :
    RateLimiter.countAllowedIn
      (RateLimiter.runCalls (RateLimiter.limits "pdf_convert") [] [0, 1, 2]) 0
      (RateLimiter.limits "pdf_convert").2 ≤ (RateLimiter.limits "pdf_convert").1 :=
  (rate_limiter_sliding_window_invariant "pdf_convert" [0, 1, 2]
    (by norm_num [List.sorted_cons])).1 0

namespace RateLimiter

/-- Traces decompose over appended call lists. -/
lemma runCalls_append (lim : ℕ × ℚ) :
    ∀ (xs : List ℚ) (B ys : List ℚ),
      runCalls lim B (xs ++ ys) =
        runCalls lim B xs ++ runCalls lim (foldBucket lim B xs) ys
  | [], _, _ => by simp [runCalls, foldBucket]
  | x :: xs, B, ys => by
    simp [runCalls, foldBucket, runCalls_append lim xs _ ys]

/-- A run in which no pruning can fire and the limit is never reached
accepts every call and accumulates all call times in the bucket. -/
lemma runCalls_all_accept (lim : ℕ × ℚ) :
    ∀ (ts pre : List ℚ),
      pre.length + ts.length ≤ lim.1 →
      (∀ a ∈ pre, ∀ t ∈ ts, ¬ a < t - lim.2) →
      (∀ a ∈ ts, ∀ t ∈ ts, ¬ a < t - lim.2) →
      ((runCalls lim pre ts).map CallRecord.allowed =
        List.replicate ts.length true) ∧
      foldBucket lim pre ts = pre ++ ts
  | [], pre, _, _, _ => by simp [runCalls, foldBucket]
  | t :: ts, pre, hlen, hnp, hself => by
    have hdrop : pre.dropWhile (fun a => decide (a < t - lim.2)) = pre :=
      dropWhile_eq_self_of_forall fun a ha => by
        simpa using hnp a ha t (List.mem_cons_self t ts)
    have hnotfull : ¬ lim.1 ≤ pre.length := by
      simp only [List.length_cons] at hlen
      omega
    have hstep1 : (is_allowed_bucket lim pre t).1 = true := by
      simp only [is_allowed_bucket, hdrop]
      rw [if_neg hnotfull]
    have hstep2 : (is_allowed_bucket lim pre t).2.2 = pre ++ [t] := by
      simp only [is_allowed_bucket, hdrop]
      rw [if_neg hnotfull]
    have hrest := runCalls_all_accept lim ts (pre ++ [t])
      (by simp only [List.length_append, List.length_cons,
            List.length_nil] at hlen ⊢; omega)
      (by
        intro a ha t' ht'
        rcases List.mem_append.mp ha with ha | ha
        · exact hnp a ha t' (List.mem_cons_of_mem t ht')
        · rw [List.mem_singleton] at ha
          rw [ha]
          exact hself t (List.mem_cons_self t ts) t' (List.mem_cons_of_mem t ht'))
      (fun a ha t' ht' =>
        hself a (List.mem_cons_of_mem t ha) t' (List.mem_cons_of_mem t ht'))
    constructor
    · simp [runCalls, hstep1, hstep2, hrest.1, List.replicate_succ]
    · simp only [foldBucket, hstep2, hrest.2, List.append_assoc,
        List.singleton_append]

end RateLimiter

/-- Claim C4 counterexample: ten requests at time 0 and an 11th at time
59.5 — all within one minute on the `pdf_convert` class, limited to 10 per
60 seconds.  The 10 first calls are accepted and the 11th rejected, but the
rejection's `retry_after` is `int(0 + 60 - 59.5) = 0`: it differs from the
claimed exact value `oldestRemainingTimestamp + window - now = 0.5`, and the
claimed `retryAfter > 0` fails. -/
theorem rate_limiter_retry_after_counterexample :
    ((RateLimiter.runCalls (RateLimiter.limits "pdf_convert") []
        (List.replicate 10 (0 : ℚ) ++ [(119 : ℚ) / 2])).map
      RateLimiter.CallRecord.allowed = List.replicate 10 true ++ [false]) ∧
    ((RateLimiter.runCalls (RateLimiter.limits "pdf_convert") []
        (List.replicate 10 (0 : ℚ) ++ [(119 : ℚ) / 2])).getLastD
      ⟨0, false, ⟨0, 0, 0, 0⟩, []⟩).info.retryAfter = 0 ∧
    ¬ ((0 : ℚ) + 60 - 119 / 2 = 0) ∧
    ¬ (0 <
      ((RateLimiter.runCalls (RateLimiter.limits "pdf_convert") []
          (List.replicate 10 (0 : ℚ) ++ [(119 : ℚ) / 2])).getLastD
        ⟨0, false, ⟨0, 0, 0, 0⟩, []⟩).info.retryAfter) := by
  have hlim : RateLimiter.limits "pdf_convert" = (10, 60) := by decide
  have h1 : (RateLimiter.runCalls (RateLimiter.limits "pdf_convert") []
      (List.replicate 10 (0 : ℚ) ++ [(119 : ℚ) / 2])).map
      RateLimiter.CallRecord.allowed = List.replicate 10 true ++ [false] := by
    rw [hlim]
    norm_num [RateLimiter.runCalls, RateLimiter.is_allowed_bucket,
      List.dropWhile_cons, List.dropWhile_nil, pyInt, List.replicate]
  have h2 : ((RateLimiter.runCalls (RateLimiter.limits "pdf_convert") []
      (List.replicate 10 (0 : ℚ) ++ [(119 : ℚ) / 2])).getLastD
      ⟨0, false, ⟨0, 0, 0, 0⟩, []⟩).info.retryAfter = 0 := by
    rw [hlim]
    norm_num [RateLimiter.runCalls, RateLimiter.is_allowed_bucket,
      List.dropWhile_cons, List.dropWhile_nil, pyInt, List.replicate,
      List.getLastD]
  exact ⟨h1, h2, by norm_num, by rw [h2]; decide⟩

/-- Claim C4 (amended): each `is_allowed` call first prunes all timestamps
older than `now - window` from the (chronologically sorted) bucket; if the
remaining count is `≥ maxRequests` it rejects with
`retryAfter = int(oldestRemaining + window - now)` — Python-truncated to an
integer, not the exact rational of the original claim — otherwise it
appends `now` and accepts with `remaining = maxRequests - count - 1`.
Consequently a client issuing 11 requests within one minute against
`pdf_convert` (10/minute) has the first ten accepted (in particular the
10th) and the 11th rejected with truncated `retryAfter ≥ 0` (not
necessarily `> 0`). -/
theorem rate_limiter_decision_algorithm :
    (∀ (lim : ℕ × ℚ) (bucket : List ℚ) (now : ℚ), bucket.Sorted (· ≤ ·) →
      bucket.dropWhile (fun t => decide (t < now - lim.2)) =
        bucket.filter fun t => decide (now - lim.2 ≤ t)) ∧
    (∀ (lim : ℕ × ℚ) (bucket : List ℚ) (now : ℚ),
      lim.1 ≤ (bucket.dropWhile fun t => decide (t < now - lim.2)).length →
      RateLimiter.is_allowed_bucket lim bucket now =
        (false,
         ⟨lim.1, 0,
          pyInt ((bucket.dropWhile fun t => decide (t < now - lim.2)).headD now + lim.2),
          pyInt ((bucket.dropWhile fun t => decide (t < now - lim.2)).headD now + lim.2 - now)⟩,
         bucket.dropWhile fun t => decide (t < now - lim.2))) ∧
    (∀ (lim : ℕ × ℚ) (bucket : List ℚ) (now : ℚ),
      (bucket.dropWhile fun t => decide (t < now - lim.2)).length < lim.1 →
      RateLimiter.is_allowed_bucket lim bucket now =
        (true,
         ⟨lim.1,
          lim.1 - (bucket.dropWhile fun t => decide (t < now - lim.2)).length - 1,
          pyInt (now + lim.2), 0⟩,
         (bucket.dropWhile fun t => decide (t < now - lim.2)) ++ [now])) ∧
    (∀ (t0 : ℚ) (rest : List ℚ) (t11 : ℚ), rest.length = 9 →
      ((t0 :: rest) ++ [t11]).Sorted (· ≤ ·) →
      (∀ a ∈ t0 :: rest, t11 - a < 60) →
      ((RateLimiter.runCalls (RateLimiter.limits "pdf_convert") []
          ((t0 :: rest) ++ [t11])).map RateLimiter.CallRecord.allowed =
        List.replicate 10 true ++ [false]) ∧
      ((RateLimiter.runCalls (RateLimiter.limits "pdf_convert") []
          ((t0 :: rest) ++ [t11])).getLastD
        ⟨0, false, ⟨0, 0, 0, 0⟩, []⟩).info.retryAfter =
          pyInt (t0 + 60 - t11) ∧
      0 ≤ pyInt (t0 + 60 - t11)) := by
  refine ⟨?_, ?_, ?_, ?_⟩
  · intro lim bucket now hs
    exact sorted_dropWhile_eq_filter (now - lim.2) hs
  · intro lim bucket now hfull
    simp only [RateLimiter.is_allowed_bucket]
    rw [if_pos hfull]
  · intro lim bucket now hlt
    simp only [RateLimiter.is_allowed_bucket]
    rw [if_neg (Nat.not_le_of_lt hlt)]
  · intro t0 rest t11 hlen hsorted hwithin
    have hlim : RateLimiter.limits "pdf_convert" = (10, 60) := by decide
    -- every element of the first ten is bounded by `t11`
    have hfirst_le : ∀ a ∈ t0 :: rest, a ≤ t11 := by
      intro a ha
      rw [List.Sorted, List.pairwise_append] at hsorted
      exact hsorted.2.2 a ha t11 (List.mem_singleton_self t11)
    -- no pruning among the first ten calls
    have hself : ∀ a ∈ t0 :: rest, ∀ t ∈ t0 :: rest, ¬ a < t - (60 : ℚ) := by
      intro a ha t ht
      have h1 : t ≤ t11 := hfirst_le t ht
      have h2 : t11 - a < 60 := hwithin a ha
      intro hcon
      linarith
    have hacc := RateLimiter.runCalls_all_accept (10, 60) (t0 :: rest) []
      (by simp [hlen]) (by simp) hself
    have hfb : RateLimiter.foldBucket (10, 60) [] (t0 :: rest) = t0 :: rest := by
      simpa using hacc.2
    -- the 11th call is rejected: nothing is pruned and the bucket is full
    have hdrop : (t0 :: rest).dropWhile (fun a => decide (a < t11 - (60 : ℚ))) =
        t0 :: rest :=
      dropWhile_eq_self_of_forall fun a ha => by
        have := hwithin a ha
        simp only [decide_eq_false_iff_not]
        intro hcon
        linarith
    have hfull : (10 : ℕ) ≤
        ((t0 :: rest).dropWhile fun a => decide (a < t11 - (60 : ℚ))).length := by
      rw [hdrop]
      simp [hlen]
    have hstep : RateLimiter.is_allowed_bucket (10, 60) (t0 :: rest) t11 =
        (false,
         ⟨10, 0, pyInt (t0 + 60), pyInt (t0 + 60 - t11)⟩,
         t0 :: rest) := by
      simp only [RateLimiter.is_allowed_bucket]
      rw [if_pos hfull]
      rw [hdrop]
      simp [List.headD]
    have happ := RateLimiter.runCalls_append (10, 60) (t0 :: rest) [] [t11]
    rw [hfb] at happ
    have hlast : RateLimiter.runCalls (10, 60) (t0 :: rest) [t11] =
        [⟨t11, false, ⟨10, 0, pyInt (t0 + 60), pyInt (t0 + 60 - t11)⟩, t0 :: rest⟩] := by
      simp [RateLimiter.runCalls, hstep]
    have hnneg : (0 : ℚ) ≤ t0 + 60 - t11 := by
      have := hwithin t0 (List.mem_cons_self t0 rest)
      linarith
    refine ⟨?_, ?_, ?_⟩
    · rw [hlim, happ, hlast]
      simp only [List.map_append, hacc.1, List.length_cons, hlen, List.map_cons,
        List.map_nil]
    · rw [hlim, happ, hlast]
      simp [List.getLastD_concat]
    · unfold pyInt
      rw [if_pos hnneg]
      exact Int.le_floor.mpr (by exact_mod_cast hnneg)

/-- Witness for C4: the reject branch at bucket `[0]`, limit 1, time 0, and
the 11-request scenario with the first ten at times 0..9 and the 11th at
time 59.5. -/
theorem rate_limiter_decision_algorithm_witness :
    (RateLimiter.is_allowed_bucket (1, 60) [(0 : ℚ)] 0 =
      (false, ⟨1, 0, pyInt 60, pyInt 60⟩, [(0 : ℚ)])) ∧
    ((RateLimiter.runCalls (RateLimiter.limits "pdf_convert") []
        (((0 : ℚ) :: [1, 2, 3, 4, 5, 6, 7, 8, 9]) ++ [(119 : ℚ) / 2])).map
      RateLimiter.CallRecord.allowed = List.replicate 10 true ++ [false]) := by
  constructor
  · have h := rate_limiter_decision_algorithm.2.1 (1, 60) [(0 : ℚ)] 0
      (by norm_num [List.dropWhile_cons, List.dropWhile_nil])
    simpa [List.dropWhile_cons, List.dropWhile_nil] using h
  · exact (rate_limiter_decision_algorithm.2.2.2 0 [1, 2, 3, 4, 5, 6, 7, 8, 9]
      ((119 : ℚ) / 2) (by norm_num)
      (by norm_num [List.sorted_cons, List.mem_append])
      (by
        intro a ha
        fin_cases ha <;> norm_num)).1

lemma ringAppend_length_le {α : Type} (cap : ℕ) (x : α) {xs : List α}
    (h : xs.length ≤ cap) : (ringAppend cap xs x).length ≤ cap := by
  unfold ringAppend
  by_cases hc : cap < (xs ++ [x]).length
  · rw [if_pos hc]
    simp only [List.length_tail, List.length_append, List.length_singleton] at *
    omega
  · rw [if_neg hc]
    omega

lemma foldl_ringAppend_length {α : Type} (cap : ℕ) :
    ∀ (es : List α) (xs : List α), xs.length ≤ cap →
      (es.foldl (ringAppend cap) xs).length ≤ cap
  | [], _, h => h
  | e :: es, xs, h =>
    foldl_ringAppend_length cap es (ringAppend cap xs e)
      (ringAppend_length_le cap e h)

lemma ringAppend_full {α : Type} {cap : ℕ} {xs : List α} (x : α)
    (hlen : xs.length = cap) (hpos : 0 < cap) :
    ringAppend cap xs x = xs.tail ++ [x] := by
  unfold ringAppend
  rw [if_pos (by simp [hlen])]
  cases xs with
  | nil => simp at hlen; omega
  | cons a l => simp

/-- Claim C8: the request-log ring (capacity 1000) and the error ring
(capacity `MAX_ERROR_HISTORY = 200`) never exceed their capacities under any
sequence of insertions starting from empty, and once a buffer is full each
new insertion drops exactly the oldest entry (FIFO). -/
theorem telemetry_ring_buffers_bounded :
    (∀ es : List RequestMonitor.LogEntry,
      (es.foldl (ringAppend 1000) []).length ≤ 1000) ∧
    (∀ es : List ErrorEntry,
      (es.foldl (ringAppend MAX_ERROR_HISTORY) []).length ≤ MAX_ERROR_HISTORY) ∧
    (∀ (xs : List RequestMonitor.LogEntry) (x : RequestMonitor.LogEntry),
      xs.length = 1000 → ringAppend 1000 xs x = xs.tail ++ [x]) ∧
    (∀ (xs : List ErrorEntry) (x : ErrorEntry),
      xs.length = MAX_ERROR_HISTORY →
        ringAppend MAX_ERROR_HISTORY xs x = xs.tail ++ [x]) := by
  refine ⟨?_, ?_, ?_, ?_⟩
  · intro es
    exact foldl_ringAppend_length 1000 es [] (by simp)
  · intro es
    exact foldl_ringAppend_length MAX_ERROR_HISTORY es [] (by simp)
  · intro xs x h
    exact ringAppend_full x h (by norm_num)
  · intro xs x h
    exact ringAppend_full x h (by norm_num [MAX_ERROR_HISTORY])

/-- Witness for C8: a full 1000-entry request ring evicts exactly its
oldest entry on the next insertion. -/
theorem telemetry_ring_buffers_bounded_witness :
    (List.replicate 1000 (⟨0, "", "", 0, 0, ""⟩ : RequestMonitor.LogEntry)).length
      = 1000 ∧
    ringAppend 1000
      (List.replicate 1000 (⟨0, "", "", 0, 0, ""⟩ : RequestMonitor.LogEntry))
      ⟨1, "e", "POST", 200, 1, "ip"⟩ =
    (List.replicate 1000 (⟨0, "", "", 0, 0, ""⟩ : RequestMonitor.LogEntry)).tail ++
      [⟨1, "e", "POST", 200, 1, "ip"⟩] :=
  ⟨by rw [List.length_replicate],
   telemetry_ring_buffers_bounded.2.2.1
     (List.replicate 1000 ⟨0, "", "", 0, 0, ""⟩) ⟨1, "e", "POST", 200, 1, "ip"⟩
     (by rw [List.length_replicate])⟩

/-- Dropped records leave the whole error-tracking state untouched — in
particular no counter is incremented. -/
lemma track_error_drop {st : ErrorState} {et em ip : String} {now : ℚ}
    (h : 10 < recentErrorCount st ip now) :
    (track_error st et em ip now).1 = false ∧
      (track_error st et em ip now).2 = st := by
  unfold track_error
  rw [if_pos h]
  exact ⟨rfl, rfl⟩

/-- Appending through the bounded ring adds at most one matching entry, and
none when the new entry does not match the filter. -/
lemma filter_ringAppend_le {α : Type} (cap : ℕ) (xs : List α) (e : α)
    (p : α → Bool) :
    ((ringAppend cap xs e).filter p).length ≤
      (xs.filter p).length + (if p e = true then 1 else 0) := by
  have hys : ((xs ++ [e]).filter p).length =
      (xs.filter p).length + (if p e = true then 1 else 0) := by
    by_cases hp : p e = true <;> simp [List.filter_append, List.filter_cons, hp]
  unfold ringAppend
  by_cases hc : cap < (xs ++ [e]).length
  · rw [if_pos hc]
    calc ((xs ++ [e]).tail.filter p).length
        ≤ ((xs ++ [e]).filter p).length :=
          ((List.tail_sublist _).filter p).length_le
      _ = _ := hys
  · rw [if_neg hc]
    exact le_of_eq hys

/-- A client's in-window error count only shrinks as the clock advances. -/
lemma recentErrorCount_mono_time (st : ErrorState) (ip : String) {t1 t2 : ℚ}
    (h : t1 ≤ t2) : recentErrorCount st ip t2 ≤ recentErrorCount st ip t1 := by
  apply length_filter_mono
  intro e _ hp
  rcases Bool.and_eq_true_iff.mp hp with ⟨hip, ht⟩
  rw [Bool.and_eq_true_iff]
  refine ⟨hip, ?_⟩
  rw [decide_eq_true_eq] at ht ⊢
  linarith

/-- Along any `track_error` trace with nondecreasing call times, no client
ever accumulates more than 11 in-window records (the `> 10` guard lets the
11th through, the 12th is dropped). -/
lemma runTrackErrors_recent_le :
    ∀ (cs : List (String × String × String × ℚ)) (st : ErrorState) (now0 : ℚ),
      (∀ ip, recentErrorCount st ip now0 ≤ 11) →
      (∀ c ∈ cs, now0 ≤ c.2.2.2) →
      ((cs.map fun c => c.2.2.2).Sorted (· ≤ ·)) →
      ∀ ip, recentErrorCount (runTrackErrors st cs).2 ip
        ((cs.map fun c => c.2.2.2).getLastD now0) ≤ 11
  | [], st, now0, hst, _, _ => by
    simpa [runTrackErrors] using hst
  | c :: cs, st, now0, hst, hts, hsorted => by
    rw [List.map_cons] at hsorted
    rcases List.sorted_cons.mp hsorted with ⟨hhead, hsorted'⟩
    have hpre : ∀ ip, recentErrorCount st ip c.2.2.2 ≤ 11 := fun ip =>
      le_trans (recentErrorCount_mono_time st ip
        (hts c (List.mem_cons_self c cs))) (hst ip)
    have hstep : ∀ ip,
        recentErrorCount (track_error st c.1 c.2.1 c.2.2.1 c.2.2.2).2 ip
          c.2.2.2 ≤ 11 := by
      intro ip
      by_cases hdrop : 10 < recentErrorCount st c.2.2.1 c.2.2.2
      · rw [(track_error_drop hdrop).2]
        exact hpre ip
      · have hle10 : recentErrorCount st c.2.2.1 c.2.2.2 ≤ 10 :=
          Nat.le_of_not_lt hdrop
        unfold track_error
        rw [if_neg hdrop]
        unfold recentErrorCount at hle10 ⊢
        dsimp only
        refine le_trans (filter_ringAppend_le MAX_ERROR_HISTORY _ _ _) ?_
        by_cases hip : ip = c.2.2.1
        · subst hip
          rw [if_pos (by
            simp only [Bool.and_eq_true_iff, decide_eq_true_eq]
            exact ⟨by trivial, by norm_num⟩)]
          omega
        · rw [if_neg (by
            simp only [Bool.and_eq_true_iff, decide_eq_true_eq, not_and]
            intro hcon
            exact absurd hcon.symm hip)]
          have := hpre ip
          unfold recentErrorCount at this
          omega
    have hrec := runTrackErrors_recent_le cs
      (track_error st c.1 c.2.1 c.2.2.1 c.2.2.2).2 c.2.2.2 hstep
      (fun c' hc' => hhead _ (List.mem_map_of_mem _ hc')) hsorted'
    intro ip
    rw [List.map_cons, List.getLastD_cons]
    exact hrec ip

/-- Claim C9 counterexample: eleven `track_error` calls for the same client
inside one minute are all appended (each returns `True`), so the client
reaches 11 in-window error records — not the claimed maximum of 10 — and
the 12th call is dropped with the state (including every `error_counts`
counter) completely unchanged, so no counter records the drop. -/
theorem track_error_per_client_limit_counterexample :
    ((runTrackErrors ErrorState.initial
        (List.replicate 11 ("E", "m", "1.2.3.4", (0 : ℚ)))).1 =
      List.replicate 11 true) ∧
    recentErrorCount
      (runTrackErrors ErrorState.initial
        (List.replicate 11 ("E", "m", "1.2.3.4", (0 : ℚ)))).2 "1.2.3.4" 0 = 11 ∧
    (track_error
      (runTrackErrors ErrorState.initial
        (List.replicate 11 ("E", "m", "1.2.3.4", (0 : ℚ)))).2
      "E" "m" "1.2.3.4" 0).1 = false ∧
    (track_error
      (runTrackErrors ErrorState.initial
        (List.replicate 11 ("E", "m", "1.2.3.4", (0 : ℚ)))).2
      "E" "m" "1.2.3.4" 0).2 =
    (runTrackErrors ErrorState.initial
      (List.replicate 11 ("E", "m", "1.2.3.4", (0 : ℚ)))).2 := by
  have h1 : (runTrackErrors ErrorState.initial
      (List.replicate 11 ("E", "m", "1.2.3.4", (0 : ℚ)))).1 =
      List.replicate 11 true := by
    norm_num [runTrackErrors, track_error, recentErrorCount, ErrorState.initial,
      ringAppend, MAX_ERROR_HISTORY, List.replicate, List.filter_cons,
      List.filter_nil]
  have h2 : recentErrorCount
      (runTrackErrors ErrorState.initial
        (List.replicate 11 ("E", "m", "1.2.3.4", (0 : ℚ)))).2 "1.2.3.4" 0 = 11 := by
    norm_num [runTrackErrors, track_error, recentErrorCount, ErrorState.initial,
      ringAppend, MAX_ERROR_HISTORY, List.replicate, List.filter_cons,
      List.filter_nil]
  have hdrop := @track_error_drop _ "E" "m" "1.2.3.4" 0
    (h2 ▸ (by norm_num : (10 : ℕ) < 11))
  exact ⟨h1, h2, hdrop.1, hdrop.2⟩

/-- Claim C9 (amended): `track_error` drops a new error record (returning
`False` and leaving the whole telemetry state — including every
`error_counts` counter — unchanged, the drop being logged, not counted)
exactly when the client already has strictly more than 10 records inside
the trailing minute; otherwise it appends and returns `True`.  Under
nondecreasing clock times a client therefore accumulates at most 11 (not
10) in-window records. -/
theorem track_error_per_client_limit (st : ErrorState)
    (et em ip : String) (now : ℚ) :
    (10 < recentErrorCount st ip now →
      (track_error st et em ip now).1 = false ∧
      (track_error st et em ip now).2 = st) ∧
    (recentErrorCount st ip now ≤ 10 →
      (track_error st et em ip now).1 = true) ∧
    (∀ (cs : List (String × String × String × ℚ)),
      (∀ c ∈ cs, (0 : ℚ) ≤ c.2.2.2) →
      ((cs.map fun c => c.2.2.2).Sorted (· ≤ ·)) →
      ∀ ip', recentErrorCount (runTrackErrors ErrorState.initial cs).2 ip'
        ((cs.map fun c => c.2.2.2).getLastD 0) ≤ 11) := by
  refine ⟨fun h => track_error_drop h, fun h => ?_, fun cs h0 hsorted ip' => ?_⟩
  · unfold track_error
    rw [if_neg (Nat.not_lt.mpr h)]
  · exact runTrackErrors_recent_le cs ErrorState.initial 0
      (fun _ => by simp [recentErrorCount, ErrorState.initial]) h0 hsorted ip'

/-- Witness for C9: on a fresh state a first error is appended (`True`);
after eleven same-client errors at time 0 the twelfth is dropped, and the
trace bound holds on a concrete two-call trace. -/
theorem track_error_per_client_limit_witness :
    ((track_error ErrorState.initial "E" "m" "1.2.3.4" 0).1 = true) ∧
    recentErrorCount
      (runTrackErrors ErrorState.initial
        [("E", "m", "1.2.3.4", (0 : ℚ)), ("E", "m", "1.2.3.4", (1 : ℚ))]).2
      "1.2.3.4"
      (([("E", "m", "1.2.3.4", (0 : ℚ)),
         ("E", "m", "1.2.3.4", (1 : ℚ))].map fun c => c.2.2.2).getLastD 0) ≤ 11 :=
  ⟨(track_error_per_client_limit ErrorState.initial "E" "m" "1.2.3.4" 0).2.1
      (by norm_num [recentErrorCount, ErrorState.initial]),
   (track_error_per_client_limit ErrorState.initial "E" "m" "1.2.3.4" 0).2.2
      [("E", "m", "1.2.3.4", (0 : ℚ)), ("E", "m", "1.2.3.4", (1 : ℚ))]
      (by intro c hc; fin_cases hc <;> norm_num)
      (by norm_num [List.sorted_cons]) "1.2.3.4"⟩

lemma permitsAfter_cons (p : ℕ) (r : SemRecord) (rs : List SemRecord) (k : ℕ) :
    permitsAfter p (r :: rs) (k + 1) = permitsAfter r.permits rs k := by
  unfold permitsAfter
  rw [List.take_succ_cons]
  cases h : rs.take k with
  | nil => simp [h]
  | cons x xs => simp [h, List.getLast?_cons_cons, List.getLast?_cons]

lemma sAcqCount_cons_acq_true (p : ℕ) (rs : List SemRecord) :
    sAcqCount (⟨.tryAcquire, true, p⟩ :: rs) = sAcqCount rs + 1 := by
  simp [sAcqCount, List.countP_cons]

lemma sAcqCount_cons_acq_false (p : ℕ) (rs : List SemRecord) :
    sAcqCount (⟨.tryAcquire, false, p⟩ :: rs) = sAcqCount rs := by
  simp [sAcqCount, List.countP_cons]

lemma sAcqCount_cons_rel (b : Bool) (p : ℕ) (rs : List SemRecord) :
    sAcqCount (⟨.release, b, p⟩ :: rs) = sAcqCount rs := by
  simp [sAcqCount, List.countP_cons]

lemma relCount_cons_acq (b : Bool) (p : ℕ) (rs : List SemRecord) :
    relCount (⟨.tryAcquire, b, p⟩ :: rs) = relCount rs := by
  simp [relCount, List.countP_cons]

lemma relCount_cons_rel (b : Bool) (p : ℕ) (rs : List SemRecord) :
    relCount (⟨.release, b, p⟩ :: rs) = relCount rs + 1 := by
  simp [relCount, List.countP_cons]

/-- Inductive invariant of the semaphore: starting from `permits` available
permits with `d` operations in flight (`permits + d = MAX`), any event
sequence in which every prefix releases at most what it successfully
acquired keeps `d + acquires - releases` between 0 and the ceiling, and the
permit count complements it exactly. -/
lemma runSem_invariant :
    ∀ (es : List SemEvent) (permits d : ℕ),
      permits + d = MAX_CONCURRENT_OPERATIONS →
      (∀ k, relCount ((runSem permits es).take k) ≤
        d + sAcqCount ((runSem permits es).take k)) →
      ∀ k,
        d + sAcqCount ((runSem permits es).take k) ≤
          MAX_CONCURRENT_OPERATIONS + relCount ((runSem permits es).take k) ∧
        permitsAfter permits (runSem permits es) k +
            (d + sAcqCount ((runSem permits es).take k)) =
          MAX_CONCURRENT_OPERATIONS + relCount ((runSem permits es).take k)
  | [], permits, d, hpd, _ => by
    intro k
    simp [runSem, permitsAfter, sAcqCount, relCount, List.countP_nil]
    omega
  | e :: es, permits, d, hpd, hwf => by
    intro k
    cases e with
    | tryAcquire =>
      by_cases hp : 0 < permits
      · -- successful non-blocking acquire
        have hrun : runSem permits (SemEvent.tryAcquire :: es) =
            ⟨.tryAcquire, true, permits - 1⟩ :: runSem (permits - 1) es := by
          simp only [runSem]
          rw [if_pos hp]
        have hwf' : ∀ k, relCount ((runSem (permits - 1) es).take k) ≤
            (d + 1) + sAcqCount ((runSem (permits - 1) es).take k) := by
          intro k'
          have h := hwf (k' + 1)
          rw [hrun, List.take_succ_cons, sAcqCount_cons_acq_true,
            relCount_cons_acq] at h
          omega
        have ih := runSem_invariant es (permits - 1) (d + 1) (by omega) hwf'
        cases k with
        | zero =>
          simp [permitsAfter, sAcqCount, relCount]
          omega
        | succ k' =>
          have h := ih k'
          rw [hrun, List.take_succ_cons, permitsAfter_cons,
            sAcqCount_cons_acq_true, relCount_cons_acq]
          dsimp only
          omega
      · -- failed acquire: the ceiling is reached, nothing changes
        have hrun : runSem permits (SemEvent.tryAcquire :: es) =
            ⟨.tryAcquire, false, permits⟩ :: runSem permits es := by
          simp only [runSem]
          rw [if_neg hp]
        have hwf' : ∀ k, relCount ((runSem permits es).take k) ≤
            d + sAcqCount ((runSem permits es).take k) := by
          intro k'
          have h := hwf (k' + 1)
          rw [hrun, List.take_succ_cons, sAcqCount_cons_acq_false,
            relCount_cons_acq] at h
          omega
        have ih := runSem_invariant es permits d hpd hwf'
        cases k with
        | zero =>
          simp [permitsAfter, sAcqCount, relCount]
          omega
        | succ k' =>
          have h := ih k'
          rw [hrun, List.take_succ_cons, permitsAfter_cons,
            sAcqCount_cons_acq_false, relCount_cons_acq]
          dsimp only
          omega
    | release =>
      have hrun : runSem permits (SemEvent.release :: es) =
          ⟨.release, true, permits + 1⟩ :: runSem (permits + 1) es := rfl
      have hd1 : 1 ≤ d := by
        have h := hwf 1
        rw [hrun] at h
        rw [List.take_succ_cons, List.take_zero, sAcqCount_cons_rel,
          relCount_cons_rel] at h
        simp [sAcqCount, relCount] at h
        omega
      have hwf' : ∀ k, relCount ((runSem (permits + 1) es).take k) ≤
          (d - 1) + sAcqCount ((runSem (permits + 1) es).take k) := by
        intro k'
        have h := hwf (k' + 1)
        rw [hrun, List.take_succ_cons, sAcqCount_cons_rel,
          relCount_cons_rel] at h
        omega
      have ih := runSem_invariant es (permits + 1) (d - 1) (by omega) hwf'
      cases k with
      | zero =>
        simp [permitsAfter, sAcqCount, relCount]
        omega
      | succ k' =>
        have h := ih k'
        rw [hrun, List.take_succ_cons, permitsAfter_cons,
          sAcqCount_cons_rel, relCount_cons_rel]
        dsimp only
        omega

/-- Claim C3: for every interleaving of the handlers' semaphore operations
— an event sequence in which every prefix releases at most what it
successfully acquired, which is what the paired
acquire/`finally`-release discipline of `enhanced_error_handler` produces —
the in-flight count `inUse = successfulAcquires - releases` satisfies
`0 ≤ inUse ≤ MAX_CONCURRENT_OPERATIONS` after every prefix, and the
semaphore's available permits always equal
`MAX_CONCURRENT_OPERATIONS - inUse`. -/
theorem concurrency_gate_in_use_bounds (es : List SemEvent)
    (hwf : ∀ k, relCount ((runSem MAX_CONCURRENT_OPERATIONS es).take k) ≤
      sAcqCount ((runSem MAX_CONCURRENT_OPERATIONS es).take k)) :
    ∀ k,
      0 ≤ (sAcqCount ((runSem MAX_CONCURRENT_OPERATIONS es).take k) : ℤ) -
          relCount ((runSem MAX_CONCURRENT_OPERATIONS es).take k) ∧
      (sAcqCount ((runSem MAX_CONCURRENT_OPERATIONS es).take k) : ℤ) -
          relCount ((runSem MAX_CONCURRENT_OPERATIONS es).take k) ≤
        MAX_CONCURRENT_OPERATIONS ∧
      (permitsAfter MAX_CONCURRENT_OPERATIONS
          (runSem MAX_CONCURRENT_OPERATIONS es) k : ℤ) =
        MAX_CONCURRENT_OPERATIONS -
          ((sAcqCount ((runSem MAX_CONCURRENT_OPERATIONS es).take k) : ℤ) -
            relCount ((runSem MAX_CONCURRENT_OPERATIONS es).take k)) := by
  intro k
  have h := runSem_invariant es MAX_CONCURRENT_OPERATIONS 0 (by omega)
    (by simpa using hwf) k
  have hk := hwf k
  refine ⟨by omega, by omega, by omega⟩

/-- Witness for C3: the trace acquire, acquire, release, acquire, release,
release under the default ceiling of 5; after the first three events one
operation is in flight and four permits are available. -/
theorem concurrency_gate_in_use_bounds_witness :
    0 ≤ (sAcqCount ((runSem MAX_CONCURRENT_OPERATIONS
        [SemEvent.tryAcquire, SemEvent.tryAcquire, SemEvent.release,
         SemEvent.tryAcquire, SemEvent.release, SemEvent.release]).take 3) : ℤ) -
        relCount ((runSem MAX_CONCURRENT_OPERATIONS
        [SemEvent.tryAcquire, SemEvent.tryAcquire, SemEvent.release,
         SemEvent.tryAcquire, SemEvent.release, SemEvent.release]).take 3) ∧
    (sAcqCount ((runSem MAX_CONCURRENT_OPERATIONS
        [SemEvent.tryAcquire, SemEvent.tryAcquire, SemEvent.release,
         SemEvent.tryAcquire, SemEvent.release, SemEvent.release]).take 3) : ℤ) -
        relCount ((runSem MAX_CONCURRENT_OPERATIONS
        [SemEvent.tryAcquire, SemEvent.tryAcquire, SemEvent.release,
         SemEvent.tryAcquire, SemEvent.release, SemEvent.release]).take 3) ≤
      MAX_CONCURRENT_OPERATIONS ∧
    (permitsAfter MAX_CONCURRENT_OPERATIONS
        (runSem MAX_CONCURRENT_OPERATIONS
        [SemEvent.tryAcquire, SemEvent.tryAcquire, SemEvent.release,
         SemEvent.tryAcquire, SemEvent.release, SemEvent.release]) 3 : ℤ) =
      MAX_CONCURRENT_OPERATIONS -
        ((sAcqCount ((runSem MAX_CONCURRENT_OPERATIONS
        [SemEvent.tryAcquire, SemEvent.tryAcquire, SemEvent.release,
         SemEvent.tryAcquire, SemEvent.release, SemEvent.release]).take 3) : ℤ) -
          relCount ((runSem MAX_CONCURRENT_OPERATIONS
        [SemEvent.tryAcquire, SemEvent.tryAcquire, SemEvent.release,
         SemEvent.tryAcquire, SemEvent.release, SemEvent.release]).take 3)) :=
  concurrency_gate_in_use_bounds
    [SemEvent.tryAcquire, SemEvent.tryAcquire, SemEvent.release,
     SemEvent.tryAcquire, SemEvent.release, SemEvent.release]
    (by
      intro k
      by_cases hk : k ≤ 6
      · interval_cases k <;> decide
      · rw [List.take_of_length_le (by
          simp only [runSem, MAX_CONCURRENT_OPERATIONS]
          norm_num
          omega)]
        decide) 3

namespace RateLimiter

/-- Either branch of one `is_allowed` call: accept appends `now` to the
pruned bucket, reject stores just the pruned bucket. -/
lemma is_allowed_bucket_cases (lim : ℕ × ℚ) (b : List ℚ) (now : ℚ) :
    ((is_allowed_bucket lim b now).1 = true ∧
      (is_allowed_bucket lim b now).2.2 =
        (b.dropWhile fun t => decide (t < now - lim.2)) ++ [now]) ∨
    ((is_allowed_bucket lim b now).1 = false ∧
      (is_allowed_bucket lim b now).2.2 =
        b.dropWhile fun t => decide (t < now - lim.2)) := by
  unfold is_allowed_bucket
  by_cases h : lim.1 ≤ (b.dropWhile fun t => decide (t < now - lim.2)).length
  · right
    rw [if_pos h]
    exact ⟨rfl, rfl⟩
  · left
    rw [if_neg h]
    exact ⟨rfl, rfl⟩

/-- On an accepted call the stored bucket for the addressed key is the
pruned bucket with `now` appended. -/
lemma is_allowed_state_of_allowed (rl : State) (client_ip endpoint : String)
    (now : ℚ) (h : (is_allowed rl client_ip endpoint now).allowed = true) :
    (is_allowed rl client_ip endpoint now).state (client_ip ++ ":" ++ endpoint) =
      ((rl (client_ip ++ ":" ++ endpoint)).dropWhile fun t =>
        decide (t < now - (limits endpoint).2)) ++ [now] := by
  unfold is_allowed at h ⊢
  dsimp only at h ⊢
  rw [if_pos rfl]
  rcases is_allowed_bucket_cases (limits endpoint)
    (rl (client_ip ++ ":" ++ endpoint)) now with ⟨_, hb⟩ | ⟨hf, _⟩
  · exact hb
  · rw [hf] at h
    exact absurd h (by simp)

end RateLimiter

/-- Claim C1 counterexample: with memory at 96% against the 80% threshold
(unhealthy), a client that is over quota gets the 429 rate-limit rejection,
not the claimed 503 system-degraded one — the rate limiter runs first; and
a client within quota does get the 503, but only after its timestamp has
been appended to the rate-limit bucket, which the claim says cannot
happen. -/
theorem admission_check_order_counterexample :
    ((guarded_endpoint "pdf_convert"
        (fun k => if k = "1.2.3.4:pdf_convert" then List.replicate 10 (0 : ℚ) else [])
        5 "1.2.3.4" 1 true ⟨96, 10, 2 ^ 34⟩
        (Except.ok ⟨200, "", "", none, []⟩)).resp.status = 429) ∧
    ((guarded_endpoint "pdf_convert" (fun _ => []) 5 "1.2.3.4" 1 true
        ⟨96, 10, 2 ^ 34⟩ (Except.ok ⟨200, "", "", none, []⟩)).resp.status = 503) ∧
    ((guarded_endpoint "pdf_convert" (fun _ => []) 5 "1.2.3.4" 1 true
        ⟨96, 10, 2 ^ 34⟩ (Except.ok ⟨200, "", "", none, []⟩)).rl
      "1.2.3.4:pdf_convert" = [1]) := by
  have hlim : RateLimiter.limits "pdf_convert" = (10, 60) := by decide
  have hkey : ("1.2.3.4" ++ ":" ++ "pdf_convert") = "1.2.3.4:pdf_convert" := by
    decide
  refine ⟨?_, by decide, by decide⟩
  simp only [guarded_endpoint, RateLimiter.is_allowed, hlim, hkey]
  norm_num [RateLimiter.is_allowed_bucket, List.dropWhile_cons,
    List.dropWhile_nil, List.replicate, pyInt]

/-- Claim C1 (amended): for every request to a guarded endpoint the
admission checks run in the order RateLimiter first (the outermost
decorator), then the ResourceMonitor health check, then the ConcurrencyGate
— short-circuiting on the first failure.  A quota rejection is returned
before the health check is even consulted; when the system is unhealthy the
request is rejected 503 `SYSTEM_OVERLOAD` before the semaphore is touched,
but only after the rate limiter has recorded the request's timestamp in the
client's bucket. -/
theorem admission_check_order (endpoint : String) (rl : RateLimiter.State)
    (permits : ℕ) (client_ip : String) (now : ℚ) (psutil_available : Bool)
    (stats : ResourceMonitor.SysStats) (body : Except PyExc Response) :
    ((RateLimiter.is_allowed rl client_ip endpoint now).allowed = false →
      (guarded_endpoint endpoint rl permits client_ip now psutil_available
        stats body).resp.status = 429 ∧
      (guarded_endpoint endpoint rl permits client_ip now psutil_available
        stats body).resp.error = "Rate limit exceeded" ∧
      (guarded_endpoint endpoint rl permits client_ip now psutil_available
        stats body).permits = permits ∧
      (guarded_endpoint endpoint rl permits client_ip now psutil_available
        stats body).acquired = false ∧
      (guarded_endpoint endpoint rl permits client_ip now psutil_available
        stats body).released = 0 ∧
      (∀ stats' : ResourceMonitor.SysStats,
        guarded_endpoint endpoint rl permits client_ip now psutil_available
          stats' body =
        guarded_endpoint endpoint rl permits client_ip now psutil_available
          stats body)) ∧
    ((RateLimiter.is_allowed rl client_ip endpoint now).allowed = true →
      (ResourceMonitor.check_system_health psutil_available stats).1 = false →
      (guarded_endpoint endpoint rl permits client_ip now psutil_available
        stats body).resp.status = 503 ∧
      (guarded_endpoint endpoint rl permits client_ip now psutil_available
        stats body).resp.code = "SYSTEM_OVERLOAD" ∧
      (guarded_endpoint endpoint rl permits client_ip now psutil_available
        stats body).permits = permits ∧
      (guarded_endpoint endpoint rl permits client_ip now psutil_available
        stats body).acquired = false ∧
      (guarded_endpoint endpoint rl permits client_ip now psutil_available
        stats body).rl (client_ip ++ ":" ++ endpoint) =
        ((rl (client_ip ++ ":" ++ endpoint)).dropWhile fun t =>
          decide (t < now - (RateLimiter.limits endpoint).2)) ++ [now]) ∧
    ((RateLimiter.is_allowed rl client_ip endpoint now).allowed = true →
      (ResourceMonitor.check_system_health psutil_available stats).1 = true →
      permits = 0 →
      (guarded_endpoint endpoint rl permits client_ip now psutil_available
        stats body).resp.status = 429 ∧
      (guarded_endpoint endpoint rl permits client_ip now psutil_available
        stats body).resp.code = "TOO_MANY_REQUESTS" ∧
      (guarded_endpoint endpoint rl permits client_ip now psutil_available
        stats body).acquired = false ∧
      (guarded_endpoint endpoint rl permits client_ip now psutil_available
        stats body).released = 0) ∧
    ((RateLimiter.is_allowed rl client_ip endpoint now).allowed = true →
      (ResourceMonitor.check_system_health psutil_available stats).1 = true →
      0 < permits →
      (guarded_endpoint endpoint rl permits client_ip now psutil_available
        stats body).acquired = true ∧
      (guarded_endpoint endpoint rl permits client_ip now psutil_available
        stats body).released = 1 ∧
      (guarded_endpoint endpoint rl permits client_ip now psutil_available
        stats body).permits = permits ∧
      (guarded_endpoint endpoint rl permits client_ip now psutil_available
        stats body).resp.status =
        (match body with
         | Except.ok r => r
         | Except.error e => exceptionResponse e).status) := by
  refine ⟨?_, ?_, ?_, ?_⟩
  · intro hra
    have hg : ∀ st' : ResourceMonitor.SysStats,
        guarded_endpoint endpoint rl permits client_ip now psutil_available
          st' body =
          ⟨⟨429, "Rate limit exceeded", "",
              some (RateLimiter.is_allowed rl client_ip endpoint now).info.retryAfter,
              rateHeaders (RateLimiter.is_allowed rl client_ip endpoint now).info ++
                [("Retry-After", toString
                  (RateLimiter.is_allowed rl client_ip endpoint now).info.retryAfter)]⟩,
            (RateLimiter.is_allowed rl client_ip endpoint now).state,
            permits, false, 0⟩ := by
      intro st'
      unfold guarded_endpoint
      rw [if_pos hra]
    exact ⟨by rw [hg stats], by rw [hg stats], by rw [hg stats], by rw [hg stats],
      by rw [hg stats], fun st' => by rw [hg st', hg stats]⟩
  · intro hra hhf
    unfold guarded_endpoint
    rw [if_neg (by simp [hra])]
    unfold enhanced_error_handler
    rw [if_pos hhf]
    refine ⟨rfl, rfl, rfl, rfl, ?_⟩
    exact RateLimiter.is_allowed_state_of_allowed rl client_ip endpoint now hra
  · intro hra hht hp0
    unfold guarded_endpoint
    rw [if_neg (by simp [hra])]
    unfold enhanced_error_handler
    rw [if_neg (by simp [hht]), if_pos hp0]
    exact ⟨rfl, rfl, rfl, rfl⟩
  · intro hra hht hp
    unfold guarded_endpoint
    rw [if_neg (by simp [hra])]
    unfold enhanced_error_handler
    rw [if_neg (by simp [hht]), if_neg (by omega)]
    refine ⟨rfl, rfl, ?_, ?_⟩
    · dsimp only
      omega
    · cases body <;> rfl

/-- Witness for C1: with an unhealthy snapshot (96% memory) and an empty
bucket the request is admitted by the rate limiter, rejected 503 by the
health check, and its timestamp lands in the bucket; with a healthy
snapshot and a free semaphore the body's response is returned and the slot
is released exactly once. -/
theorem admission_check_order_witness :
    ((guarded_endpoint "pdf_convert" (fun _ => []) 5 "1.2.3.4" 1 true
        ⟨96, 10, 2 ^ 34⟩ (Except.ok ⟨200, "", "", none, []⟩)).resp.status = 503 ∧
      (guarded_endpoint "pdf_convert" (fun _ => []) 5 "1.2.3.4" 1 true
        ⟨96, 10, 2 ^ 34⟩ (Except.ok ⟨200, "", "", none, []⟩)).resp.code =
        "SYSTEM_OVERLOAD" ∧
      (guarded_endpoint "pdf_convert" (fun _ => []) 5 "1.2.3.4" 1 true
        ⟨96, 10, 2 ^ 34⟩ (Except.ok ⟨200, "", "", none, []⟩)).permits = 5 ∧
      (guarded_endpoint "pdf_convert" (fun _ => []) 5 "1.2.3.4" 1 true
        ⟨96, 10, 2 ^ 34⟩ (Except.ok ⟨200, "", "", none, []⟩)).acquired = false ∧
      (guarded_endpoint "pdf_convert" (fun _ => []) 5 "1.2.3.4" 1 true
        ⟨96, 10, 2 ^ 34⟩ (Except.ok ⟨200, "", "", none, []⟩)).rl
        ("1.2.3.4" ++ ":" ++ "pdf_convert") =
        (((fun _ => ([] : List ℚ)) ("1.2.3.4" ++ ":" ++ "pdf_convert")).dropWhile
          fun t => decide (t < 1 - (RateLimiter.limits "pdf_convert").2)) ++ [1]) ∧
    ((guarded_endpoint "pdf_convert" (fun _ => []) 5 "1.2.3.4" 1 true
        ⟨40, 10, 2 ^ 34⟩ (Except.ok ⟨200, "", "", none, []⟩)).acquired = true ∧
      (guarded_endpoint "pdf_convert" (fun _ => []) 5 "1.2.3.4" 1 true
        ⟨40, 10, 2 ^ 34⟩ (Except.ok ⟨200, "", "", none, []⟩)).released = 1 ∧
      (guarded_endpoint "pdf_convert" (fun _ => []) 5 "1.2.3.4" 1 true
        ⟨40, 10, 2 ^ 34⟩ (Except.ok ⟨200, "", "", none, []⟩)).permits = 5 ∧
      (guarded_endpoint "pdf_convert" (fun _ => []) 5 "1.2.3.4" 1 true
        ⟨40, 10, 2 ^ 34⟩ (Except.ok ⟨200, "", "", none, []⟩)).resp.status =
        (match (Except.ok ⟨200, "", "", none, []⟩ : Except PyExc Response) with
         | Except.ok r => r
         | Except.error e => exceptionResponse e).status) :=
  ⟨(admission_check_order "pdf_convert" (fun _ => []) 5 "1.2.3.4" 1 true
      ⟨96, 10, 2 ^ 34⟩ (Except.ok ⟨200, "", "", none, []⟩)).2.1
      (by decide) (by decide),
   (admission_check_order "pdf_convert" (fun _ => []) 5 "1.2.3.4" 1 true
      ⟨40, 10, 2 ^ 34⟩ (Except.ok ⟨200, "", "", none, []⟩)).2.2.2
      (by decide) (by decide) (by decide)⟩

/-- Claim C5: when the concurrency ceiling is reached (zero permits) the
non-blocking acquire fails and the request is immediately rejected 429
`TOO_MANY_REQUESTS` with a retry hint, leaving the semaphore untouched; on
every request whose acquire succeeded the slot is released exactly once on
every exit path (normal return and each exception branch alike, `body`
being universally quantified); a failed acquire never releases; and every
request is recorded in telemetry with its final status code and measured
duration. -/
theorem concurrency_release_and_telemetry
    (psutil_available : Bool) (stats : ResourceMonitor.SysStats) (permits : ℕ)
    (body : Except PyExc Response)
    (requests : List RequestMonitor.LogEntry) (endpoint method : String)
    (rl : RateLimiter.State) (client_ip : String)
    (start_time finish_time : ℚ) :
    ((ResourceMonitor.check_system_health psutil_available stats).1 = true →
      permits = 0 →
      enhanced_error_handler psutil_available stats permits body =
        ⟨⟨429, "Server busy", "TOO_MANY_REQUESTS", some 30, []⟩,
         permits, false, 0⟩) ∧
    ((ResourceMonitor.check_system_health psutil_available stats).1 = true →
      0 < permits →
      (enhanced_error_handler psutil_available stats permits body).acquired
        = true ∧
      (enhanced_error_handler psutil_available stats permits body).released
        = 1 ∧
      (enhanced_error_handler psutil_available stats permits body).permits
        = permits) ∧
    ((enhanced_error_handler psutil_available stats permits body).acquired
        = false →
      (enhanced_error_handler psutil_available stats permits body).released
        = 0) ∧
    ((processRequest requests endpoint method rl permits client_ip start_time
        finish_time psutil_available stats body).2 =
      ringAppend 1000 requests
        ⟨finish_time, endpoint, method,
         (processRequest requests endpoint method rl permits client_ip
            start_time finish_time psutil_available stats body).1.resp.status,
         RequestMonitor.round2 ((finish_time - start_time) * 1000),
         client_ip⟩) := by
  refine ⟨?_, ?_, ?_, rfl⟩
  · intro hht hp0
    unfold enhanced_error_handler
    rw [if_neg (by simp [hht]), if_pos hp0]
  · intro hht hp
    unfold enhanced_error_handler
    rw [if_neg (by simp [hht]), if_neg (by omega)]
    refine ⟨rfl, rfl, ?_⟩
    dsimp only
    omega
  · intro hacq
    unfold enhanced_error_handler at hacq ⊢
    by_cases hh : (ResourceMonitor.check_system_health psutil_available stats).1 = false
    · rw [if_pos hh]
    · rw [if_neg hh] at hacq ⊢
      by_cases hp0 : permits = 0
      · rw [if_pos hp0]
      · rw [if_neg hp0] at hacq
        exact absurd hacq (by simp)

/-- Witness for C5: with a healthy snapshot, zero permits give the
non-blocking 429 rejection, and one available permit gives acquire with
exactly one release and a restored permit count. -/
theorem concurrency_release_and_telemetry_witness :
    (enhanced_error_handler true ⟨40, 10, 2 ^ 34⟩ 0
        (Except.error PyExc.otherException) =
      ⟨⟨429, "Server busy", "TOO_MANY_REQUESTS", some 30, []⟩, 0, false, 0⟩) ∧
    ((enhanced_error_handler true ⟨40, 10, 2 ^ 34⟩ 1
        (Except.error PyExc.memoryError)).acquired = true ∧
      (enhanced_error_handler true ⟨40, 10, 2 ^ 34⟩ 1
        (Except.error PyExc.memoryError)).released = 1 ∧
      (enhanced_error_handler true ⟨40, 10, 2 ^ 34⟩ 1
        (Except.error PyExc.memoryError)).permits = 1) :=
  ⟨(concurrency_release_and_telemetry true ⟨40, 10, 2 ^ 34⟩ 0
      (Except.error PyExc.otherException) [] "" "" (fun _ => []) "" 0 0).1
      (by decide) rfl,
   (concurrency_release_and_telemetry true ⟨40, 10, 2 ^ 34⟩ 1
      (Except.error PyExc.memoryError) [] "" "" (fun _ => []) "" 0 0).2.1
      (by decide) (by decide)⟩

lemma string_data_append (a b : String) : (a ++ b).data = a.data ++ b.data := rfl

lemma string_data_inj {a b : String} (h : a.data = b.data) : a = b := by
  cases a
  cases b
  exact congrArg String.mk h

/-- Claim C6: the cache fingerprint is deterministic — identical content and
parameters give identical keys, so the two requests address the same cache
entry — and changing an output-affecting parameter (the compression quality
of `/compress-pdf`, the image-inclusion flag of `/pdf-to-docx`) always
changes the key, because the parameter is embedded verbatim between the
content hash and the output file name. -/
theorem cache_fingerprint_deterministic_and_discriminating
    (content : List ℕ) (name q1 q2 : String) (b1 b2 : Bool) :
    (compress_cache_key content q1 name = compress_cache_key content q1 name ∧
      pdf_to_docx_cache_key content b1 name =
        pdf_to_docx_cache_key content b1 name) ∧
    (q1 ≠ q2 →
      compress_cache_key content q1 name ≠ compress_cache_key content q2 name) ∧
    (b1 ≠ b2 →
      pdf_to_docx_cache_key content b1 name ≠
        pdf_to_docx_cache_key content b2 name) := by
  refine ⟨⟨rfl, rfl⟩, ?_, ?_⟩
  · intro hne heq
    apply hne
    unfold compress_cache_key at heq
    have hdata := congrArg String.data heq
    simp only [string_data_append] at hdata
    have h1 := List.append_cancel_right hdata
    have h2 := List.append_cancel_right h1
    have h3 := List.append_cancel_left h2
    exact string_data_inj h3
  · intro hne heq
    apply hne
    unfold pdf_to_docx_cache_key at heq
    have hdata := congrArg String.data heq
    simp only [string_data_append] at hdata
    have h1 := List.append_cancel_right hdata
    have h2 := List.append_cancel_right h1
    have h3 := List.append_cancel_left h2
    have hb : pyBoolStr b1 = pyBoolStr b2 := string_data_inj h3
    cases b1 <;> cases b2 <;> simp_all [pyBoolStr]

/-- Witness for C6: with identical bytes and file name, the qualities
`"low"` and `"medium"` produce different compression cache keys, and
toggling image inclusion produces different conversion cache keys. -/
theorem cache_fingerprint_deterministic_and_discriminating_witness :
    ("low" ≠ "medium" →
      compress_cache_key [37, 80, 68, 70] "low" "doc.pdf" ≠
        compress_cache_key [37, 80, 68, 70] "medium" "doc.pdf") ∧
    compress_cache_key [37, 80, 68, 70] "low" "doc.pdf" ≠
      compress_cache_key [37, 80, 68, 70] "medium" "doc.pdf" ∧
    pdf_to_docx_cache_key [37, 80, 68, 70] true "doc.pdf" ≠
      pdf_to_docx_cache_key [37, 80, 68, 70] false "doc.pdf" :=
  ⟨(cache_fingerprint_deterministic_and_discriminating
      [37, 80, 68, 70] "doc.pdf" "low" "medium" true false).2.1,
   (cache_fingerprint_deterministic_and_discriminating
      [37, 80, 68, 70] "doc.pdf" "low" "medium" true false).2.1 (by decide),
   (cache_fingerprint_deterministic_and_discriminating
      [37, 80, 68, 70] "doc.pdf" "low" "medium" true false).2.2 (by decide)⟩

/-- Cache hit in `pdf_to_docx` without `force`: the stored artifact is sent
back untouched, with no extra headers, no conversion attempt and no cache
write. -/
lemma pdf_to_docx_body_hit {cache : CacheDir} {content : List ℕ}
    {name : String} {images : Bool} {conv : Option ConvOut} {a : List ℕ}
    (h : cache (pdf_to_docx_cache_key content images name) = some a) :
    pdf_to_docx_body cache content name false images conv =
      ⟨200, a, [], cache, 0⟩ := by
  simp only [pdf_to_docx_body]
  rw [h]

/-- Cache miss in `pdf_to_docx` with a successful nonempty conversion: the
converter runs once and its output is stored under the cache key. -/
lemma pdf_to_docx_body_miss_success {cache : CacheDir} {content : List ℕ}
    {name : String} {force images : Bool} {c : ConvOut}
    (h : cache (pdf_to_docx_cache_key content images name) = none)
    (hne : c.bytes.length ≠ 0) :
    pdf_to_docx_body cache content name force images (some c) =
      ⟨200, c.bytes,
       [("X-Conversion-Method", c.method),
        ("X-Pages-Processed", toString c.pages),
        ("X-Images-Extracted", toString c.images),
        ("X-Text-Characters", toString c.text_chars)],
       fun k => if k = pdf_to_docx_cache_key content images name then
         some c.bytes else cache k, 1⟩ := by
  simp only [pdf_to_docx_body]
  rw [h]
  cases force <;> simp [hne]

/-- Cache hit in `compress_pdf` without `force`: the stored artifact is
sent back with the `X-Cached: true` marker, and the compressor is not
invoked. -/
lemma compress_pdf_body_hit {cache : CacheDir} {content : List ℕ}
    {name quality : String} {comp : Option CompOut} {a : List ℕ}
    (h : cache (compress_cache_key content quality name) = some a) :
    compress_pdf_body cache content name false quality comp =
      ⟨200, a,
       [("X-Compression-Ratio", formatPercent content.length a.length),
        ("X-Original-Size", toString content.length),
        ("X-Compressed-Size", toString a.length),
        ("X-Cached", "true")],
       cache, 0⟩ := by
  simp only [compress_pdf_body]
  rw [h]

/-- Cache miss in `compress_pdf` on a large input with a successful,
genuinely smaller compression: the compressor runs once and its output is
stored under the cache key. -/
lemma compress_pdf_body_miss_success {cache : CacheDir} {content : List ℕ}
    {name quality : String} {out : CompOut}
    (h : cache (compress_cache_key content quality name) = none)
    (hbig : ¬ content.length < 1048576)
    (hsmaller : out.bytes.length < content.length) :
    compress_pdf_body cache content name false quality (some out) =
      ⟨200, out.bytes,
       [("X-Compression-Ratio",
          formatPercent content.length out.bytes.length),
        ("X-Original-Size", toString content.length),
        ("X-Compressed-Size", toString out.bytes.length),
        ("X-Method", out.method),
        ("X-Quality", quality)],
       fun k => if k = compress_cache_key content quality name then
         some out.bytes else cache k, 1⟩ := by
  simp only [compress_pdf_body]
  rw [h]
  rw [if_neg (by simp [hbig])]
  rw [if_neg (by simp; omega)]

/-- Claim C7 counterexample: a `/pdf-to-docx` cache hit returns the stored
artifact without invoking the converter, but its response carries no
headers at all — in particular no `X-Cached: true` marker — while the
`/compress-pdf` hit path does set `X-Cached: true`.  The claimed
hit signalling header is absent on one of the two cited endpoints. -/
theorem cache_hit_header_counterexample :
    ((pdf_to_docx_body
        (fun k => if k = pdf_to_docx_cache_key [37, 80, 68, 70] true "doc.pdf"
          then some [9, 9] else none)
        [37, 80, 68, 70] "doc.pdf" false true none).fileBytes = [9, 9]) ∧
    ((pdf_to_docx_body
        (fun k => if k = pdf_to_docx_cache_key [37, 80, 68, 70] true "doc.pdf"
          then some [9, 9] else none)
        [37, 80, 68, 70] "doc.pdf" false true none).processorCalls = 0) ∧
    ((pdf_to_docx_body
        (fun k => if k = pdf_to_docx_cache_key [37, 80, 68, 70] true "doc.pdf"
          then some [9, 9] else none)
        [37, 80, 68, 70] "doc.pdf" false true none).headers = []) ∧
    ¬ (("X-Cached", "true") ∈
        (pdf_to_docx_body
          (fun k => if k = pdf_to_docx_cache_key [37, 80, 68, 70] true "doc.pdf"
            then some [9, 9] else none)
          [37, 80, 68, 70] "doc.pdf" false true none).headers) ∧
    (("X-Cached", "true") ∈
        (compress_pdf_body
          (fun k => if k = compress_cache_key [37, 80, 68, 70] "medium" "doc.pdf"
            then some [9, 9] else none)
          [37, 80, 68, 70] "doc.pdf" false "medium" none).headers) := by
  have hdocx : pdf_to_docx_body
      (fun k => if k = pdf_to_docx_cache_key [37, 80, 68, 70] true "doc.pdf"
        then some [9, 9] else none)
      [37, 80, 68, 70] "doc.pdf" false true none =
      ⟨200, [9, 9], [],
       fun k => if k = pdf_to_docx_cache_key [37, 80, 68, 70] true "doc.pdf"
         then some [9, 9] else none, 0⟩ :=
    pdf_to_docx_body_hit (if_pos rfl)
  have hcomp : compress_pdf_body
      (fun k => if k = compress_cache_key [37, 80, 68, 70] "medium" "doc.pdf"
        then some [9, 9] else none)
      [37, 80, 68, 70] "doc.pdf" false "medium" none =
      ⟨200, [9, 9],
       [("X-Compression-Ratio",
          formatPercent (List.length [37, 80, 68, 70]) (List.length [9, 9])),
        ("X-Original-Size", toString (List.length [37, 80, 68, 70])),
        ("X-Compressed-Size", toString (List.length [9, 9])),
        ("X-Cached", "true")],
       fun k => if k = compress_cache_key [37, 80, 68, 70] "medium" "doc.pdf"
         then some [9, 9] else none, 0⟩ :=
    compress_pdf_body_hit (if_pos rfl)
  rw [hdocx, hcomp]
  refine ⟨rfl, rfl, rfl, by simp, by simp⟩

/-- Claim C7 (amended): on a cache hit (entry present, `force` unset) both
handlers return the stored artifact without invoking the external
processor, so two identical requests whose first run succeeds and caches
its output cause exactly one processor invocation; but only
`/compress-pdf` signals the hit with an `X-Cached: true` header — the
`/pdf-to-docx` hit response carries no headers at all. -/
theorem cache_hit_skips_processor (cache : CacheDir) (content : List ℕ)
    (name quality : String) (images : Bool) (conv : Option ConvOut)
    (comp : Option CompOut) (a : List ℕ) (c : ConvOut) :
    (cache (pdf_to_docx_cache_key content images name) = some a →
      pdf_to_docx_body cache content name false images conv =
        ⟨200, a, [], cache, 0⟩) ∧
    (cache (compress_cache_key content quality name) = some a →
      (compress_pdf_body cache content name false quality comp).fileBytes
        = a ∧
      (compress_pdf_body cache content name false quality comp).processorCalls
        = 0 ∧
      ("X-Cached", "true") ∈
        (compress_pdf_body cache content name false quality comp).headers) ∧
    (cache (pdf_to_docx_cache_key content images name) = none →
      c.bytes.length ≠ 0 →
      (pdf_to_docx_body cache content name false images (some c)).processorCalls
          +
        (pdf_to_docx_body
          (pdf_to_docx_body cache content name false images (some c)).cache
          content name false images (some c)).processorCalls = 1 ∧
      (pdf_to_docx_body
        (pdf_to_docx_body cache content name false images (some c)).cache
        content name false images (some c)).fileBytes = c.bytes) := by
  refine ⟨fun h => pdf_to_docx_body_hit h, fun h => ?_, fun h hne => ?_⟩
  · rw [compress_pdf_body_hit h]
    exact ⟨rfl, rfl, by simp⟩
  · have h1 := @pdf_to_docx_body_miss_success cache content name false
      images c h hne
    have h2 : (pdf_to_docx_body cache content name false images
        (some c)).cache (pdf_to_docx_cache_key content images name) =
        some c.bytes := by
      rw [h1]
      exact if_pos rfl
    rw [pdf_to_docx_body_hit h2, h1]
    exact ⟨rfl, rfl⟩

/-- Witness for C7: a concrete hit returns the artifact with zero processor
calls, and a miss followed by an identical request invokes the converter
exactly once in total. -/
theorem cache_hit_skips_processor_witness :
    (pdf_to_docx_body
        (fun k => if k = pdf_to_docx_cache_key [1, 2, 3] false "a.pdf"
          then some [7] else none)
        [1, 2, 3] "a.pdf" false false none =
      ⟨200, [7], [],
       fun k => if k = pdf_to_docx_cache_key [1, 2, 3] false "a.pdf"
         then some [7] else none, 0⟩) ∧
    ((pdf_to_docx_body (fun _ => none) [1, 2, 3] "a.pdf" false false
        (some ⟨[8, 8], "pdf2docx", 1, 0, 4⟩)).processorCalls +
      (pdf_to_docx_body
        (pdf_to_docx_body (fun _ => none) [1, 2, 3] "a.pdf" false false
          (some ⟨[8, 8], "pdf2docx", 1, 0, 4⟩)).cache
        [1, 2, 3] "a.pdf" false false
        (some ⟨[8, 8], "pdf2docx", 1, 0, 4⟩)).processorCalls = 1 ∧
      (pdf_to_docx_body
        (pdf_to_docx_body (fun _ => none) [1, 2, 3] "a.pdf" false false
          (some ⟨[8, 8], "pdf2docx", 1, 0, 4⟩)).cache
        [1, 2, 3] "a.pdf" false false
        (some ⟨[8, 8], "pdf2docx", 1, 0, 4⟩)).fileBytes = [8, 8]) :=
  ⟨(cache_hit_skips_processor
      (fun k => if k = pdf_to_docx_cache_key [1, 2, 3] false "a.pdf"
        then some [7] else none)
      [1, 2, 3] "a.pdf" "medium" false none none [7]
      ⟨[8, 8], "pdf2docx", 1, 0, 4⟩).1 (if_pos rfl),
   (cache_hit_skips_processor (fun _ => none) [1, 2, 3] "a.pdf" "medium"
      false none none [7] ⟨[8, 8], "pdf2docx", 1, 0, 4⟩).2.2 rfl
      (by decide)⟩

/-- Claim C10: a `/compress-pdf` request whose upload is smaller than 1 MiB,
with `force` unset and no cache entry for its key, returns the original
bytes unchanged with `X-Compression-Ratio: 0%`, invokes neither Ghostscript
nor PyMuPDF, and leaves the cache untouched. -/
theorem compress_pdf_small_file_bypass (cache : CacheDir) (content : List ℕ)
    (name quality : String) (compressed : Option CompOut)
    (hmiss : cache (compress_cache_key content quality name) = none)
    (hsize : content.length < 1048576) :
    compress_pdf_body cache content name false quality compressed =
      ⟨200, content,
       [("X-Compression-Ratio", "0%"),
        ("X-Message", "File already optimized")],
       cache, 0⟩ := by
  simp only [compress_pdf_body]
  rw [hmiss]
  rw [if_pos ⟨hsize, trivial⟩]

/-- Witness for C10: a 3-byte upload on an empty cache is returned
unchanged with the `0%` header and zero compressor invocations. -/
theorem compress_pdf_small_file_bypass_witness :
    compress_pdf_body (fun _ => none) [1, 2, 3] "a.pdf" false "medium"
        (some ⟨[9], "ghostscript"⟩) =
      ⟨200, [1, 2, 3],
       [("X-Compression-Ratio", "0%"),
        ("X-Message", "File already optimized")],
       fun _ => none, 0⟩ :=
  compress_pdf_small_file_bypass (fun _ => none) [1, 2, 3] "a.pdf" "medium"
    (some ⟨[9], "ghostscript"⟩) rfl (by decide)
